import Mathlib

/-!
Verification of the nfproxy reconciler core (pkg/proxy of Nordix/nfproxy).

The Go sources are shallowly embedded: pure helpers become Lean functions,
the proxy's mutable state (service map, endpoints map, endpoint-slice cache,
the kernel's no-endpoints verdict set and the issued nftables operations)
becomes an explicit `PState` record threaded through the handler functions.
Machine integers are modelled as `Nat` with explicit `% 2^w` where overflow
matters (SHA-256).  Driver (netlink) calls go through a success oracle
`ok : Nat → Bool` indexed by the running call counter; the always-true
oracle models executions in which the kernel accepts every batch.
-/

set_option maxRecDepth 100000

namespace NFP

/-! ## SHA-256 over byte lists (crypto/sha256), bytes as `Nat` in [0,256) -/

/-- Truncation to a 32-bit word. -/
def mask32 (x : Nat) : Nat := x % 4294967296

/-- Right rotation of a 32-bit word, arithmetically: for `x < 2^32` the low
`n` bits move to the top and the rest shifts down. -/
def rotR (x n : Nat) : Nat := x / 2 ^ n + x % 2 ^ n * 2 ^ (32 - n)

/-- FIPS 180-4 Σ₀. -/
def bigSig0 (x : Nat) : Nat := rotR x 2 ^^^ rotR x 13 ^^^ rotR x 22

/-- FIPS 180-4 Σ₁. -/
def bigSig1 (x : Nat) : Nat := rotR x 6 ^^^ rotR x 11 ^^^ rotR x 25

/-- FIPS 180-4 σ₀ (the plain shift is a division). -/
def smallSig0 (x : Nat) : Nat := rotR x 7 ^^^ rotR x 18 ^^^ x / 8

/-- FIPS 180-4 σ₁. -/
def smallSig1 (x : Nat) : Nat := rotR x 17 ^^^ rotR x 19 ^^^ x / 1024

/-- FIPS 180-4 Ch; the complement of `x < 2^32` is a subtraction. -/
def chOf (x y z : Nat) : Nat := (x &&& y) ^^^ ((4294967295 - x) &&& z)

/-- FIPS 180-4 Maj. -/
def majOf (x y z : Nat) : Nat := (x &&& y) ^^^ (x &&& z) ^^^ (y &&& z)

/-- The 64 round constants, in decimal. -/
def roundK : List Nat := [
   1116352408, 1899447441, 3049323471, 3921009573,
   961987163, 1508970993, 2453635748, 2870763221,
   3624381080, 310598401, 607225278, 1426881987,
   1925078388, 2162078206, 2614888103, 3248222580,
   3835390401, 4022224774, 264347078, 604807628,
   770255983, 1249150122, 1555081692, 1996064986,
   2554220882, 2821834349, 2952996808, 3210313671,
   3336571891, 3584528711, 113926993, 338241895,
   666307205, 773529912, 1294757372, 1396182291,
   1695183700, 1986661051, 2177026350, 2456956037,
   2730485921, 2820302411, 3259730800, 3345764771,
   3516065817, 3600352804, 4094571909, 275423344,
   430227734, 506948616, 659060556, 883997877,
   958139571, 1322822218, 1537002063, 1747873779,
   1955562222, 2024104815, 2227730452, 2361852424,
   2428436474, 2756734187, 3204031479, 3329325298]

/-- The eight working variables of the compression function. -/
structure Hash8 where
  a : Nat
  b : Nat
  c : Nat
  d : Nat
  e : Nat
  f : Nat
  g : Nat
  h : Nat

/-- The initial hash value H⁽⁰⁾, in decimal. -/
def shaInit : Hash8 :=
  { a := 1779033703, b := 3144134277, c := 1013904242, d := 2773480762,
    e := 1359893119, f := 2600822924, g := 528734635, h := 1541459225 }

/-- A big-endian 32-bit word from (up to) 4 bytes. -/
def beWord (bs : List Nat) : Nat := bs.foldl (fun n b => 256 * n + b) 0

/-- The 4 big-endian bytes of a 32-bit word. -/
def wordBytes (w : Nat) : List Nat :=
  [w / 16777216 % 256, w / 65536 % 256, w / 256 % 256, w % 256]

/-- Message schedule: append one derived word per step. -/
def scheduleExt : Nat → List Nat → List Nat
  | 0, ws => ws
  | steps + 1, ws =>
    let n := ws.length
    scheduleExt steps (ws ++
      [mask32 (smallSig1 (ws.getD (n - 2) 0) + ws.getD (n - 7) 0 +
        smallSig0 (ws.getD (n - 15) 0) + ws.getD (n - 16) 0)])

/-- Message schedule: extend the 16 block words to 64. -/
def scheduleWords (ws : List Nat) : List Nat := scheduleExt 48 ws

/-- One compression round on the eight working variables. -/
def roundStep (s : Hash8) (wk : Nat × Nat) : Hash8 :=
  let t1 := mask32 (s.h + bigSig1 s.e + chOf s.e s.f s.g + wk.2 + wk.1)
  let t2 := mask32 (bigSig0 s.a + majOf s.a s.b s.c)
  { a := mask32 (t1 + t2), b := s.a, c := s.b, d := s.c,
    e := mask32 (s.d + t1), f := s.e, g := s.f, h := s.g }

/-- Compress one 64-byte block into the running hash value. -/
def compressBlock (hs : Hash8) (block : List Nat) : Hash8 :=
  let ws := scheduleWords ((block.toChunks 4).map beWord)
  let t := (ws.zip roundK).foldl roundStep hs
  { a := mask32 (hs.a + t.a), b := mask32 (hs.b + t.b), c := mask32 (hs.c + t.c),
    d := mask32 (hs.d + t.d), e := mask32 (hs.e + t.e), f := mask32 (hs.f + t.f),
    g := mask32 (hs.g + t.g), h := mask32 (hs.h + t.h) }

/-- SHA-256 digest (32 bytes) of a byte list: pad to a multiple of 64 bytes
with 0x80, zeros and the 64-bit bit length, then compress block by block. -/
def sha256 (msg : List Nat) : List Nat :=
  let len := msg.length
  let pad := List.replicate ((120 - (len + 1) % 64) % 64) 0
  let lenBE := (List.range 8).map fun i => 8 * len / 2 ^ (8 * (7 - i)) % 256
  let fin := ((msg ++ 128 :: (pad ++ lenBE)).toChunks 64).foldl compressBlock shaInit
  ([fin.a, fin.b, fin.c, fin.d, fin.e, fin.f, fin.g, fin.h].map wordBytes).flatten

/-! ## Base32 (encoding/base32 StdEncoding, upper-case RFC 4648 alphabet) -/

/-- The character for a 5-bit value. -/
def b32Char (n : Nat) : Char := "ABCDEFGHIJKLMNOPQRSTUVWXYZ234567".toList.getD n '?'

/-- Encode one group of 1–5 bytes into 8 characters (with '=' padding). -/
def b32Group (g : List Nat) : List Char :=
  let v := (g ++ List.replicate (5 - g.length) 0).foldl (fun n b => 256 * n + b) 0
  let out := (List.range 8).map fun i => b32Char (v / 2 ^ (5 * (7 - i)) % 32)
  let keep := (8 * g.length + 4) / 5
  out.take keep ++ List.replicate (8 - keep) '='

/-- Base32 encoding of a byte list. -/
def base32encode (bs : List Nat) : String :=
  String.mk (((bs.toChunks 5).map b32Group).flatten)

/-- UTF-8 bytes of a string; our inputs are ASCII, where a char is one byte. -/
def strBytes (s : String) : List Nat := s.toList.map Char.toNat

/-! ## pkg/proxy/tools.go -/

/-- Go `portProtoHash` (tools.go:8-12): prefix plus the first 16 characters of
the base32 encoding of SHA-256 over the service-port name and the protocol. -/
def portProtoHash (servicePortName protocol : String) : String :=
  let hash := sha256 (strBytes (servicePortName ++ protocol))
  let encoded := base32encode hash
  "k8s-nfproxy-svc-" ++ (encoded.take 16)

/-- Go `servicePortEndpointChainName` (tools.go:38-42): same with the endpoint
string appended to the hashed input and the `sep` prefix. -/
def servicePortEndpointChainName (servicePortName protocol endpoint : String) : String :=
  let hash := sha256 (strBytes (servicePortName ++ protocol ++ endpoint))
  let encoded := base32encode hash
  "k8s-nfproxy-sep-" ++ (encoded.take 16)

/-! ## Data model (k8s core/v1 and discovery/v1beta1 objects, as consumed) -/

/-- nftables table family (utilnftables.TableFamily): the ip or ip6 NAT table. -/
inductive Fam where
  | ipv4
  | ipv6
deriving DecidableEq

/-- Modelled from the spec: `utilnet.IsIPv6String` of the external collaborator
k8s.io/utils/net — an IPv6 literal contains a colon. -/
def isIPv6String (s : String) : Bool := s.toList.contains ':'

/-- Go `getIPFamily` (proxy.go:508-519), collapsed to the table family (the
v1.IPFamily component is determined by it). -/
def getIPFamily (ipaddr : String) : Fam :=
  if isIPv6String ipaddr then Fam.ipv6 else Fam.ipv4

/-- k8s proxy.ServicePortName: (namespace, service name, port name, protocol). -/
structure ServicePortName where
  ns : String
  name : String
  port : String
  protocol : String
deriving DecidableEq

/-- The String() form used as hash seed: "ns/name" or "ns/name:port". -/
def ServicePortName.str (k : ServicePortName) : String :=
  k.ns ++ "/" ++ k.name ++ (if k.port = "" then "" else ":" ++ k.port)

/-- Go `getSvcPortName` (proxy.go:500-506). -/
def getSvcPortName (name ns portName protocol : String) : ServicePortName :=
  { ns := ns, name := name, port := portName, protocol := protocol }

/-- v1.EndpointAddress, the fields the proxy reads. -/
structure EndpointAddress where
  ip : String
  hostname : String
  nodeName : Option String
deriving DecidableEq

/-- v1.EndpointPort, the fields the proxy reads. -/
structure EndpointPort where
  name : String
  port : Int
  protocol : String
deriving DecidableEq

/-- v1.EndpointSubset. -/
structure EndpointSubset where
  addresses : List EndpointAddress
  ports : List EndpointPort
deriving DecidableEq

/-- v1.Endpoints, the fields the proxy reads. -/
structure Endpoints where
  name : String
  ns : String
  subsets : List EndpointSubset
deriving DecidableEq

/-- v1.ServicePort, the fields the proxy reads. -/
structure ServicePort where
  name : String
  protocol : String
  port : Int
  nodePort : Int
deriving DecidableEq

/-- v1.Service, the fields the proxy reads (`lbIPs` are the load-balancer
ingress IPs, `externalIPs` the spec's external IPs). -/
structure Service where
  name : String
  ns : String
  clusterIP : String
  ports : List ServicePort
  externalIPs : List String
  lbIPs : List String
  resourceVersion : String
deriving DecidableEq

/-- discovery/v1beta1 EndpointSlice endpoint entry; `ready` is
Conditions.Ready. -/
structure SliceEndpoint where
  addresses : List String
  hostname : Option String
  ready : Bool
deriving DecidableEq

/-- discovery/v1beta1 EndpointSlice port entry (pointer fields flattened). -/
structure SlicePort where
  name : String
  port : Int
  protocol : String
deriving DecidableEq

/-- discovery/v1beta1 EndpointSlice; `svcLabel` is the value of the
kubernetes.io/service-name label when present. -/
structure EpSlice where
  name : String
  ns : String
  svcLabel : Option String
  resourceVersion : String
  endpoints : List SliceEndpoint
  ports : List SlicePort
deriving DecidableEq

/-! ## Association-list maps (Go maps with deterministic representation) -/

def alookup {α β : Type} [DecidableEq α] : List (α × β) → α → Option β
  | [], _ => none
  | (k, v) :: rest, a => if k = a then some v else alookup rest a

def alookupD {α β : Type} [DecidableEq α] (m : List (α × β)) (a : α) (d : β) : β :=
  (alookup m a).getD d

def aset {α β : Type} [DecidableEq α] : List (α × β) → α → β → List (α × β)
  | [], a, b => [(a, b)]
  | (k, v) :: rest, a, b => if k = a then (a, b) :: rest else (k, v) :: aset rest a b

def aerase {α β : Type} [DecidableEq α] : List (α × β) → α → List (α × β)
  | [], _ => []
  | (k, v) :: rest, a => if k = a then aerase rest a else (k, v) :: aerase rest a

/-! ## Proxy state: in-memory maps, the no-endpoints verdict set, and the
stream of issued nftables driver operations -/

/-- One member of the process-wide no-endpoints verdict set. -/
structure NoEndTuple where
  fam : Fam
  proto : String
  ip : String
  port : Int
deriving DecidableEq

/-- EndpointInfo: one programmed backend (spec §3.2); `chain` is its
k8s-nfproxy-sep- chain, `ruleIDs` the recorded rule handles. -/
structure EndpointInfo where
  fam : Fam
  protocol : String
  ip : String
  port : Int
  isLocal : Bool
  chain : String
  ruleIDs : List Nat
deriving DecidableEq

/-- Modelled from the spec: `endpointsInfo.Equal` (endpoints.go is not under
src/) — value equality on (family, protocol, ip, port, isLocal), §4.5.4. -/
def epEq (a b : EndpointInfo) : Bool :=
  decide (a.fam = b.fam) && decide (a.protocol = b.protocol) && decide (a.ip = b.ip) &&
    decide (a.port = b.port) && decide (a.isLocal = b.isLocal)

/-- ServicePortInfo (serviceInfo + BaseServiceInfo + svcnft, spec §3.2):
virtual addresses, `withEndpoints` flag, and per-chain recorded rule IDs. -/
structure SvcInfo where
  clusterIP : String
  protocol : String
  port : Int
  nodePort : Int
  externalIPs : List String
  lbIPs : List String
  svcID : String
  withEndpoints : Bool
  chains : List (String × List Nat)
deriving DecidableEq

/-- Modelled from the spec: chain-name constants of pkg/nftables (not under
src/); the service-chain name starts with "k8s-nfproxy-svc-" (§3.1). -/
def k8sSvcChainPfx : String := "k8s-nfproxy-svc-"

/-- Modelled from the spec: the firewall-chain name starts with
"k8s-nfproxy-fw-" (§3.1). -/
def k8sFwChainPfx : String := "k8s-nfproxy-fw-"

/-- Modelled from the spec: the global NAT services dispatcher chain. -/
def k8sNATServices : String := "k8s-nat-services"

/-- Modelled from the spec: the global NAT nodeports chain. -/
def k8sNATNodeports : String := "k8s-nat-nodeports"

/-- One nftables driver primitive, as issued (spec §6.2 / §4.4). -/
inductive Op where
  | addSvcChains (fam : Fam) (svcID : String)
  | progClusterIP (fam : Fam) (chain ip proto : String) (port : Int)
  | progNodePort (fam : Fam) (chain proto : String) (nodePort : Int)
  | progExternalIP (fam : Fam) (chain : String) (ips : List String) (proto : String) (port : Int) (pos : Nat)
  | progLBFW (fam : Fam) (svcID : String)
  | progLBIP (fam : Fam) (svcID : String) (ips : List String) (proto : String) (port : Int) (pos : Nat)
  | addNoEnd (t : NoEndTuple)
  | removeNoEnd (t : NoEndTuple)
  | progSvcEndpoints (fam : Fam) (chain : String) (epChains : List String) (oldIDs : List Nat)
  | delSvcRules (fam : Fam) (chain : String) (ids : List Nat)
  | addEpRules (fam : Fam) (chain ip proto : String) (port : Int)
  | delEpRules (fam : Fam) (chain : String) (ids : List Nat)
  | delChain (fam : Fam) (chain : String)
  | delSvcChains (fam : Fam) (svcID : String)
deriving DecidableEq

/-- Observation of the `addEndpoint` / `deleteEndpoint` calls the diff engine
makes (instrumentation only; carries the call's key, address and port). -/
inductive CallEv where
  | add (key : ServicePortName) (ip : String) (port : Int)
  | del (key : ServicePortName) (ip : String) (port : Int)
deriving DecidableEq

/-- The proxy state: the two maps and the endpoint-slice cache, plus the
kernel-visible no-endpoints set, the trace of accepted driver operations, a
fresh rule-handle counter and the driver call counter. -/
structure PState where
  serviceMap : List (ServicePortName × SvcInfo) := []
  endpointsMap : List (ServicePortName × List EndpointInfo) := []
  epslCache : List ((String × String) × EpSlice) := []
  noEnd : List NoEndTuple := []
  trace : List Op := []
  callLog : List CallEv := []
  nextRule : Nat := 0
  calls : Nat := 0
deriving DecidableEq

def initState : PState := {}

/-- The always-successful driver oracle. -/
def allOk : Nat → Bool := fun _ => true

/-- One driver (netlink) call: on success it is appended to the trace and `k`
fresh rule handles are returned; on failure the kernel is unchanged. -/
def drv (ok : Nat → Bool) (s : PState) (op : Op) (k : Nat) : Option (List Nat) × PState :=
  if ok s.calls then
    (some ((List.range k).map (s.nextRule + ·)),
     { s with trace := s.trace ++ [op], nextRule := s.nextRule + k, calls := s.calls + 1 })
  else (none, { s with calls := s.calls + 1 })

def writeSvc (s : PState) (key : ServicePortName) (info : SvcInfo) : PState :=
  { s with serviceMap := aset s.serviceMap key info }

/-- Kernel set insertion is idempotent. -/
def insertTuple (l : List NoEndTuple) (t : NoEndTuple) : List NoEndTuple :=
  if t ∈ l then l else l ++ [t]

def removeTuple (l : List NoEndTuple) (t : NoEndTuple) : List NoEndTuple :=
  l.filter fun x => decide (x ≠ t)

/-- The virtual-address tuples of a service port: cluster IP, external IPs and
load-balancer IPs against the service port/protocol, in the order
`addToNoEndpointsList` walks them. -/
def svcNoEndTuples (info : SvcInfo) (fam : Fam) : List NoEndTuple :=
  { fam := fam, proto := info.protocol, ip := info.clusterIP, port := info.port } ::
    ((info.externalIPs.map fun ip =>
        { fam := fam, proto := info.protocol, ip := ip, port := info.port }) ++
     (info.lbIPs.map fun ip =>
        { fam := fam, proto := info.protocol, ip := ip, port := info.port }))

def addNoEndTuples (ok : Nat → Bool) : PState → List NoEndTuple → Bool × PState
  | s, [] => (true, s)
  | s, t :: ts =>
    match drv ok s (Op.addNoEnd t) 0 with
    | (none, s1) => (false, s1)
    | (some _, s1) => addNoEndTuples ok { s1 with noEnd := insertTuple s1.noEnd t } ts

def removeNoEndTuples (ok : Nat → Bool) : PState → List NoEndTuple → Bool × PState
  | s, [] => (true, s)
  | s, t :: ts =>
    match drv ok s (Op.removeNoEnd t) 0 with
    | (none, s1) => (false, s1)
    | (some _, s1) => removeNoEndTuples ok { s1 with noEnd := removeTuple s1.noEnd t } ts

/-- Go `addToNoEndpointsList` (proxy.go:72-94): add all IP/port pairs of a
service port to the no-endpoints set, aborting on the first driver error. -/
def addToNoEndpointsList (ok : Nat → Bool) (info : SvcInfo) (fam : Fam) (s : PState) :
    Bool × PState :=
  addNoEndTuples ok s (svcNoEndTuples info fam)

/-- Go `removeFromNoEndpointsList` (proxy.go:97-119). -/
def removeFromNoEndpointsList (ok : Nat → Bool) (info : SvcInfo) (fam : Fam) (s : PState) :
    Bool × PState :=
  removeNoEndTuples ok s (svcNoEndTuples info fam)

/-! ## UpdateServiceChain and the endpoint add/delete core (proxy.go) -/

/-- Go `getServicePortEndpointChains` (proxy.go:212-224). -/
def getServicePortEndpointChains (s : PState) (key : ServicePortName) : List String :=
  (alookupD s.endpointsMap key []).map EndpointInfo.chain

/-- Go `UpdateServiceChain` (proxy.go:331-368): on the first endpoint the
service leaves the no-endpoints set and `WithEndpoints` flips to true; then the
service chain's dispatch rules are reprogrammed against the current endpoint
chains (or deleted when none are left).  The flag mutation persists even when
a later driver call fails, as it does through the shared pointer in Go. -/
def UpdateServiceChain (ok : Nat → Bool) (key : ServicePortName) (fam : Fam) (s : PState) :
    Bool × PState :=
  match alookup s.serviceMap key with
  | none => (true, s)
  | some entry =>
    let es1 :=
      if entry.withEndpoints then (entry, s)
      else
        match removeFromNoEndpointsList ok entry fam s with
        | (false, s') => (entry, s')
        | (true, s') => ({ entry with withEndpoints := true }, s')
    let entry1 := es1.1
    let s1 := es1.2
    let epsChains := getServicePortEndpointChains s1 key
    let cn := k8sSvcChainPfx ++ entry1.svcID
    let svcRuleIDs := alookupD entry1.chains cn []
    if epsChains.isEmpty then
      match drv ok s1 (Op.delSvcRules fam cn svcRuleIDs) 0 with
      | (none, s2) => (false, writeSvc s2 key entry1)
      | (some _, s2) => (true, writeSvc s2 key { entry1 with chains := aset entry1.chains cn [] })
    else
      match drv ok s1 (Op.progSvcEndpoints fam cn epsChains svcRuleIDs) epsChains.length with
      | (none, s2) => (false, writeSvc s2 key entry1)
      | (some ids, s2) => (true, writeSvc s2 key { entry1 with chains := aset entry1.chains cn ids })

/-- Go `addEndpoint` (proxy.go:281-311): program the endpoint chain's rules,
append the EndpointInfo to the endpoints map, then reprogram the service
chain. -/
def addEndpoint (ok : Nat → Bool) (hostname : String) (key : ServicePortName)
    (addr : EndpointAddress) (port : EndpointPort) (s : PState) : Bool × PState :=
  let s0 := { s with callLog := s.callLog ++ [CallEv.add key addr.ip port.port] }
  let isLocal := addr.nodeName = some hostname
  let fam := getIPFamily addr.ip
  let cn := servicePortEndpointChainName key.str port.protocol (addr.ip ++ ":" ++ toString port.port)
  match drv ok s0 (Op.addEpRules fam cn addr.ip port.protocol port.port) 2 with
  | (none, s1) => (false, s1)
  | (some ids, s1) =>
    let ep : EndpointInfo :=
      { fam := fam, protocol := port.protocol, ip := addr.ip, port := port.port,
        isLocal := isLocal, chain := cn, ruleIDs := ids }
    let s2 := { s1 with
      endpointsMap := aset s1.endpointsMap key (alookupD s1.endpointsMap key [] ++ [ep]) }
    UpdateServiceChain ok key fam s2

/-- Go `deleteEndpointRules` (proxy.go:400-434): reprogram the service chain
first, then delete the endpoint chain's rules, then the chain itself; if the
key's endpoint list is now empty, put the service's virtual addresses into the
no-endpoints set, clear `WithEndpoints` and drop the key. -/
def deleteEndpointRules (ok : Nat → Bool) (key : ServicePortName) (fam : Fam)
    (cn : String) (ids : List Nat) (s : PState) : Bool × PState :=
  match UpdateServiceChain ok key fam s with
  | (false, s1) => (false, s1)
  | (true, s1) =>
    match drv ok s1 (Op.delEpRules fam cn ids) 0 with
    | (none, s2) => (false, s2)
    | (some _, s2) =>
      let s3 := (drv ok s2 (Op.delChain fam cn) 0).2
      if (alookupD s3.endpointsMap key []).isEmpty then
        let s4 :=
          match alookup s3.serviceMap key with
          | none => s3
          | some svc =>
            match addToNoEndpointsList ok svc (getIPFamily svc.clusterIP) s3 with
            | (false, s') => s'
            | (true, s') => writeSvc s' key { svc with withEndpoints := false }
        (true, { s4 with endpointsMap := aerase s4.endpointsMap key })
      else (true, s3)

/-- The matching loop of Go `deleteEndpoint` (proxy.go:379-397): each matching
entry is spliced out of the list captured at call time and its rules and chain
removed; a driver error stops the loop. -/
def delLoop (ok : Nat → Bool) (key : ServicePortName) (fam : Fam) (ep2d : EndpointInfo)
    (eps : List EndpointInfo) : List EndpointInfo → Nat → PState → PState
  | [], _, s => s
  | ep :: rest, i, s =>
    if epEq ep ep2d then
      let s1 := { s with endpointsMap := aset s.endpointsMap key (eps.take i ++ eps.drop (i + 1)) }
      match deleteEndpointRules ok key fam ep.chain ep.ruleIDs s1 with
      | (false, s2) => s2
      | (true, s2) => delLoop ok key fam ep2d eps rest (i + 1) s2
    else delLoop ok key fam ep2d eps rest (i + 1) s

/-- The comparison value `ep2d` built by Go `deleteEndpoint` (proxy.go:376-378)
via `newBaseEndpointInfo`; only the fields `epEq` compares matter. -/
def delTarget (hostname : String) (addr : EndpointAddress) (port : EndpointPort) : EndpointInfo :=
  { fam := getIPFamily addr.ip, protocol := port.protocol, ip := addr.ip, port := port.port,
    isLocal := addr.nodeName = some hostname, chain := "", ruleIDs := [] }

/-- Go `deleteEndpoint` (proxy.go:375-398). -/
def deleteEndpoint (ok : Nat → Bool) (hostname : String) (key : ServicePortName)
    (addr : EndpointAddress) (port : EndpointPort) (eps : List EndpointInfo)
    (s : PState) : PState :=
  let s0 := { s with callLog := s.callLog ++ [CallEv.del key addr.ip port.port] }
  delLoop ok key (getIPFamily addr.ip) (delTarget hostname addr port) eps eps 0 s0

/-! ## addService / deleteService (proxy.go) -/

/-- Modelled from the spec: `servicePortSvcID` of service.go (not under src/)
— the ServiceID of §3.1, the first 16 base32 characters of SHA-256 over the
seed strings. -/
def servicePortSvcID (spn proto infoStr : String) : String :=
  (base32encode (sha256 (strBytes (spn ++ proto ++ infoStr)))).take 16

/-- Modelled from the spec: `BaseServiceInfo.String()` of service.go (not
under src/), a summary string mixed into the ServiceID seed. -/
def baseSvcInfoStr (svc : Service) (sp : ServicePort) : String :=
  svc.clusterIP ++ ":" ++ toString sp.port ++ "/" ++ sp.protocol

/-- The table family of a service, from its cluster IP (proxy.go:130-133). -/
def svcFam (svc : Service) : Fam :=
  if isIPv6String svc.clusterIP then Fam.ipv6 else Fam.ipv4

/-- Step 4+5 of Go `addService` (proxy.go:198-208): when the key has no known
endpoints, its virtual addresses enter the no-endpoints set (a failure there
leaves the service out of the map); then the key enters the service map. -/
def addServiceFin (ok : Nat → Bool) (key : ServicePortName) (fam : Fam)
    (info : SvcInfo) (s : PState) : PState :=
  if (alookupD s.endpointsMap key []).isEmpty then
    match addToNoEndpointsList ok info fam s with
    | (false, s1) => s1
    | (true, s1) => writeSvc s1 key info
  else writeSvc s key info

/-- The load-balancer step of Go `addService` (proxy.go:181-197). -/
def addServiceLB (ok : Nat → Bool) (key : ServicePortName) (sp : ServicePort)
    (svc : Service) (fam : Fam) (info : SvcInfo) (lastPos : Nat) (s : PState) : PState :=
  if svc.lbIPs.isEmpty then addServiceFin ok key fam info s
  else
    match drv ok s (Op.progLBFW fam info.svcID) 1 with
    | (none, s1) => s1
    | (some fwIds, s1) =>
      let info1 := { info with chains := aset info.chains (k8sFwChainPfx ++ info.svcID) fwIds }
      match drv ok s1 (Op.progLBIP fam info.svcID svc.lbIPs sp.protocol sp.port lastPos) 1 with
      | (none, s2) => s2
      | (some ids, s2) =>
        let newChains := aset info1.chains k8sNATServices (alookupD info1.chains k8sNATServices [] ++ ids)
        addServiceFin ok key fam { info1 with chains := newChains } s2

/-- The external-IP step of Go `addService` (proxy.go:169-179). -/
def addServiceExt (ok : Nat → Bool) (key : ServicePortName) (sp : ServicePort)
    (svc : Service) (fam : Fam) (cn : String) (info : SvcInfo) (lastPos : Nat)
    (s : PState) : PState :=
  if svc.externalIPs.isEmpty then addServiceLB ok key sp svc fam info lastPos s
  else
    match drv ok s (Op.progExternalIP fam cn svc.externalIPs sp.protocol sp.port lastPos) 1 with
    | (none, s1) => s1
    | (some ids, s1) =>
      let newChains := aset info.chains k8sNATServices (alookupD info.chains k8sNATServices [] ++ ids)
      addServiceLB ok key sp svc fam { info with chains := newChains } (ids.getLast?.getD 0) s1

/-- The node-port step of Go `addService` (proxy.go:159-167). -/
def addServiceNP (ok : Nat → Bool) (key : ServicePortName) (sp : ServicePort)
    (svc : Service) (fam : Fam) (cn : String) (info : SvcInfo) (lastPos : Nat)
    (s : PState) : PState :=
  if sp.nodePort = 0 then addServiceExt ok key sp svc fam cn info lastPos s
  else
    match drv ok s (Op.progNodePort fam cn sp.protocol sp.nodePort) 1 with
    | (none, s1) => s1
    | (some ids, s1) =>
      addServiceExt ok key sp svc fam cn
        { info with chains := aset info.chains k8sNATNodeports ids } lastPos s1

/-- Go `addService` (proxy.go:121-209): reject an existing key; create the
service chains; program cluster-IP, node-port, external-IP and load-balancer
rules (a failure returns without registering the service); then the
no-endpoints step and map insertion of `addServiceFin`. -/
def addService (ok : Nat → Bool) (key : ServicePortName) (sp : ServicePort)
    (svc : Service) (s : PState) : PState :=
  if (alookup s.serviceMap key).isSome then s
  else
    let fam := svcFam svc
    let svcID := servicePortSvcID key.str sp.protocol (baseSvcInfoStr svc sp)
    let info0 : SvcInfo :=
      { clusterIP := svc.clusterIP, protocol := sp.protocol, port := sp.port,
        nodePort := sp.nodePort, externalIPs := svc.externalIPs, lbIPs := svc.lbIPs,
        svcID := svcID, withEndpoints := false, chains := [] }
    let cn := k8sSvcChainPfx ++ svcID
    let s1 := (drv ok s (Op.addSvcChains fam svcID) 0).2
    if svc.clusterIP = "" then addServiceNP ok key sp svc fam cn info0 0 s1
    else
      match drv ok s1 (Op.progClusterIP fam cn svc.clusterIP sp.protocol sp.port) 1 with
      | (none, s2) => s2
      | (some ids, s2) =>
        addServiceNP ok key sp svc fam cn
          { info0 with chains := aset info0.chains k8sNATServices ids }
          (ids.getLast?.getD 0) s2

/-- Go `deleteService` (proxy.go:238-270): a missing key only warns; otherwise
remove the no-endpoints entries when the flag is down, delete every recorded
rule, delete the service chains, and forget the key. -/
def deleteService (ok : Nat → Bool) (key : ServicePortName) (s : PState) : PState :=
  match alookup s.serviceMap key with
  | none => s
  | some info =>
    let fam := getIPFamily info.clusterIP
    let s1 := if info.withEndpoints then s else (removeFromNoEndpointsList ok info fam s).2
    let s2 := info.chains.foldl
      (fun acc kv => if kv.2.isEmpty then acc else (drv ok acc (Op.delSvcRules fam kv.1 kv.2) 0).2)
      s1
    let s3 := (drv ok s2 (Op.delSvcChains fam info.svcID) 0).2
    { s3 with serviceMap := aerase s3.serviceMap key }

/-! ## Service handlers (proxy.go) -/

/-- Modelled from the spec: `utilproxy.ShouldSkipService` of the external
collaborator — headless or ExternalName services have no usable cluster IP. -/
def shouldSkipService (svc : Service) : Bool :=
  svc.clusterIP = "None" || svc.clusterIP = ""

/-- The per-port body of Go `AddService` (proxy.go:59-68). -/
def AddServiceH (ok : Nat → Bool) (svc : Service) (s : PState) : PState :=
  if shouldSkipService svc then s
  else
    svc.ports.foldl
      (fun acc sp => addService ok (getSvcPortName svc.name svc.ns sp.name sp.protocol) sp svc acc)
      s

/-- The per-port body of Go `DeleteService` (proxy.go:231-235). -/
def DeleteServiceH (ok : Nat → Bool) (svc : Service) (s : PState) : PState :=
  svc.ports.foldl
    (fun acc sp => deleteService ok (getSvcPortName svc.name svc.ns sp.name sp.protocol) acc)
    s

/-- Go `UpdateService` (proxy.go:272-274) only logs. -/
def UpdateService (_svcOld _svcNew : Service) (s : PState) : PState := s

/-- A nil Go pointer dereference outcome. -/
inductive GoResult (α : Type) where
  | ok (value : α)
  | nilPanic
deriving DecidableEq

/-- Go `AddService` (proxy.go:54-69): the log line reads svc.Namespace and
svc.Name through the pointer before the nil guard runs, so a nil argument
faults and the guard is unreachable. -/
def AddServiceGo (ok : Nat → Bool) (svc : Option Service) (s : PState) : GoResult PState :=
  match svc with
  | none => GoResult.nilPanic
  | some sv =>
    if svc.isNone then GoResult.ok s
    else GoResult.ok (AddServiceH ok sv s)

/-- Go `DeleteService` (proxy.go:226-236): same dereference-before-guard. -/
def DeleteServiceGo (ok : Nat → Bool) (svc : Option Service) (s : PState) : GoResult PState :=
  match svc with
  | none => GoResult.nilPanic
  | some sv =>
    if svc.isNone then GoResult.ok s
    else GoResult.ok (DeleteServiceH ok sv s)

/-! ## Endpoints handlers (proxy.go) -/

/-- Go `isPortInSubset` (proxy.go:521-530): the membership test compares the
port name, number and protocol only — addresses play no part. -/
def isPortInSubset (subsets : List EndpointSubset) (port : EndpointPort) : Bool :=
  subsets.any fun ss => ss.ports.any fun p =>
    decide (p.name = port.name) && decide (p.port = port.port) &&
      decide (p.protocol = port.protocol)

/-- The address loop of the addition phase of Go `UpdateEndpoints`
(proxy.go:454-465). -/
def updAddAddrs (ok : Nat → Bool) (hostname : String) (key : ServicePortName)
    (port : EndpointPort) (old : Endpoints) (addrs : List EndpointAddress)
    (s : PState) : PState :=
  addrs.foldl
    (fun acc addr =>
      if addr.ip = "" then acc
      else if isPortInSubset old.subsets port then acc
      else (addEndpoint ok hostname key addr port acc).2)
    s

/-- The addition phase of Go `UpdateEndpoints` (proxy.go:445-467). -/
def updAddPhase (ok : Nat → Bool) (hostname : String) (old new : Endpoints)
    (s : PState) : PState :=
  new.subsets.foldl
    (fun acc ss =>
      ss.ports.foldl
        (fun acc2 port =>
          if port.port = 0 then acc2
          else updAddAddrs ok hostname (getSvcPortName new.name new.ns port.name port.protocol)
            port old ss.addresses acc2)
        acc)
    s

/-- The deletion phase of Go `UpdateEndpoints` (proxy.go:468-496): the
endpoints-map entry is looked up once per port, before the address loop. -/
def updDelPhase (ok : Nat → Bool) (hostname : String) (old new : Endpoints)
    (s : PState) : PState :=
  old.subsets.foldl
    (fun acc ss =>
      ss.ports.foldl
        (fun acc2 port =>
          if port.port = 0 then acc2
          else
            let key := getSvcPortName old.name old.ns port.name port.protocol
            match alookup acc2.endpointsMap key with
            | none => acc2
            | some eps =>
              ss.addresses.foldl
                (fun acc3 addr =>
                  if addr.ip = "" then acc3
                  else if isPortInSubset new.subsets port then acc3
                  else deleteEndpoint ok hostname key addr port eps acc3)
                acc2)
        acc)
    s

/-- Go `UpdateEndpoints` (proxy.go:436-498): the empty-name sentinel and the
DeepEqual guard, then the addition phase over `new` and the deletion phase
over `old`, both keyed by `isPortInSubset`. -/
def UpdateEndpoints (ok : Nat → Bool) (hostname : String) (epOld epNew : Endpoints)
    (s : PState) : PState :=
  if epNew.ns = "" ∧ epNew.name = "" then s
  else if epOld.subsets = epNew.subsets then s
  else updDelPhase ok hostname epOld epNew (updAddPhase ok hostname epOld epNew s)

/-- Go `AddEndpoints` (proxy.go:276-279). -/
def AddEndpointsH (ok : Nat → Bool) (hostname : String) (ep : Endpoints) (s : PState) : PState :=
  UpdateEndpoints ok hostname { name := "", ns := "", subsets := [] } ep s

/-- Go `DeleteEndpoints` (proxy.go:370-373): delegates to `UpdateEndpoints`
with an empty new object (whose empty name/namespace trip the sentinel). -/
def DeleteEndpointsH (ok : Nat → Bool) (hostname : String) (ep : Endpoints) (s : PState) : PState :=
  UpdateEndpoints ok hostname ep { name := "", ns := "", subsets := [] } s

/-! ## EndpointSlice cache (cache.go, src/unnamed/part_000) and handlers -/

/-- Go `storeEpSlInCache` (cache.go:154-158); Lean values are immutable so the
deep copy is the stored value itself. -/
def storeEpSlInCache (epsl : EpSlice) (s : PState) : PState :=
  { s with epslCache := aset s.epslCache (epsl.name, epsl.ns) epsl }

/-- Go `removeEpSlFromCache` (cache.go:161-169). -/
def removeEpSlFromCache (name ns : String) (s : PState) : PState :=
  { s with epslCache := aerase s.epslCache (name, ns) }

/-- The epInfo rows of endpointslice.go. -/
structure epInfo where
  name : ServicePortName
  addr : EndpointAddress
  port : EndpointPort
  ready : Bool
deriving DecidableEq

/-- Go `getServiceNameFromServiceNameLabel` (endpointslice.go). -/
def getServiceNameFromServiceNameLabel (epsl : EpSlice) : Option String := epsl.svcLabel

/-- The rows one (endpoint, port) pair contributes, one per address
(endpointslice.go:118-143); the address's NodeName is taken from the
endpoint's Hostname, as in the source. -/
def epSliceRows (svcName : String) (epsl : EpSlice) (e : SliceEndpoint) (p : SlicePort) :
    List epInfo :=
  e.addresses.map fun a =>
    { name := getSvcPortName svcName epsl.ns p.name p.protocol
      addr := { ip := a, hostname := e.hostname.getD "", nodeName := e.hostname }
      port := { name := p.name, port := p.port, protocol := p.protocol }
      ready := e.ready }

def processPorts (svcName : String) (epsl : EpSlice) (e : SliceEndpoint) :
    List SlicePort → Except String (List epInfo)
  | [] => Except.ok []
  | p :: ps =>
    if p.port = 0 then Except.error "found invalid endpoint slice port"
    else do
      let rest ← processPorts svcName epsl e ps
      Except.ok (epSliceRows svcName epsl e p ++ rest)

def processEndpoints (svcName : String) (epsl : EpSlice) :
    List SliceEndpoint → Except String (List epInfo)
  | [] => Except.ok []
  | e :: es => do
    let a ← processPorts svcName epsl e epsl.ports
    let b ← processEndpoints svcName epsl es
    Except.ok (a ++ b)

/-- Go `processEpSlice` (endpointslice.go:104-149): a slice without the
service-name label yields no rows; a zero port is an error; otherwise the
cartesian product of endpoints × ports × addresses tagged with readiness. -/
def processEpSlice (epsl : EpSlice) : Except String (List epInfo) :=
  match getServiceNameFromServiceNameLabel epsl with
  | none => Except.ok []
  | some svcName => processEndpoints svcName epsl epsl.endpoints

/-- Modelled from the spec: `isPortInEndpointSlice` is called by
`UpdateEndpointSlice` but not among the provided sources.  Per the spec's
transition table (§4.5.3) it reports whether the (address, port) tuple is in
the slice (`found`, second component) and whether that endpoint is Ready
(first component). -/
def isPortInEndpointSlice (epsl : EpSlice) (port : EndpointPort) (addr : EndpointAddress) :
    Bool × Bool :=
  if epsl.ports.any (fun p => decide (p.name = port.name) && decide (p.port = port.port) &&
      decide (p.protocol = port.protocol)) then
    match epsl.endpoints.find? (fun e => e.addresses.contains addr.ip) with
    | some e => (e.ready, true)
    | none => (false, false)
  else (false, false)

/-- The loop body of Go `AddEndpointSlice` (endpointslice.go:164-175): skip
non-ready rows; a failing `addEndpoint` ends the handler. -/
def addSliceLoop (ok : Nat → Bool) (hostname : String) : List epInfo → PState → PState
  | [], s => s
  | e :: rest, s =>
    if !e.ready then addSliceLoop ok hostname rest s
    else
      match addEndpoint ok hostname e.name e.addr e.port s with
      | (false, s1) => s1
      | (true, s1) => addSliceLoop ok hostname rest s1

/-- Go `AddEndpointSlice` (endpointslice.go:151-176): the slice is cached
first, then every ready row is programmed. -/
def AddEndpointSlice (ok : Nat → Bool) (hostname : String) (epsl : EpSlice) (s : PState) : PState :=
  let s0 := storeEpSlInCache epsl s
  match processEpSlice epsl with
  | Except.error _ => s0
  | Except.ok info => addSliceLoop ok hostname info s0

/-- The loop body of Go `DeleteEndpointSlice` (endpointslice.go:188-206). -/
def delSliceLoop (ok : Nat → Bool) (hostname : String) : List epInfo → PState → PState
  | [], s => s
  | e :: rest, s =>
    if !e.ready then delSliceLoop ok hostname rest s
    else
      match alookup s.endpointsMap e.name with
      | none => delSliceLoop ok hostname rest s
      | some eps => delSliceLoop ok hostname rest (deleteEndpoint ok hostname e.name e.addr e.port eps s)

/-- Go `DeleteEndpointSlice` (endpointslice.go:178-208). -/
def DeleteEndpointSlice (ok : Nat → Bool) (hostname : String) (epsl : EpSlice) (s : PState) : PState :=
  match processEpSlice epsl with
  | Except.error _ => s
  | Except.ok info => removeEpSlFromCache epsl.name epsl.ns (delSliceLoop ok hostname info s)

/-- The choice of authoritative old slice made by Go `UpdateEndpointSlice`
(endpointslice.go:216-229): the cached copy is used whenever the cache holds
one — regardless of resource versions (the version comparison is an
unimplemented TODO in the source) — and a warning is logged when the versions
differ (second component); only on a cache miss is the delivered old used. -/
def authoritativeOld (s : PState) (epslOld epslNew : EpSlice) : EpSlice × Bool :=
  match alookup s.epslCache (epslNew.name, epslNew.ns) with
  | none => (epslOld, false)
  | some cached => (cached, decide (epslOld.resourceVersion ≠ cached.resourceVersion))

/-- The per-row transition of Go `UpdateEndpointSlice`
(endpointslice.go:237-281), keyed on (found, ready, oldReady). -/
def updSliceRow (ok : Nat → Bool) (hostname : String) (storedOld : EpSlice)
    (e : epInfo) (s : PState) : PState :=
  let pr := isPortInEndpointSlice storedOld e.port e.addr
  let oldReady := pr.1
  let found := pr.2
  if !found && e.ready then (addEndpoint ok hostname e.name e.addr e.port s).2
  else if !found && !e.ready then s
  else if found && e.ready && oldReady then s
  else if found && !e.ready && oldReady then
    match alookup s.endpointsMap e.name with
    | none => s
    | some eps => deleteEndpoint ok hostname e.name e.addr e.port eps s
  else if found && e.ready && !oldReady then (addEndpoint ok hostname e.name e.addr e.port s).2
  else s

/-- The removed-rows pass of Go `UpdateEndpointSlice`
(endpointslice.go:283-300). -/
def updSliceRemoved (ok : Nat → Bool) (hostname : String) (epslNew : EpSlice)
    (e : epInfo) (s : PState) : PState :=
  let pr := isPortInEndpointSlice epslNew e.port e.addr
  if !pr.2 && e.ready then
    match alookup s.endpointsMap e.name with
    | none => s
    | some eps => deleteEndpoint ok hostname e.name e.addr e.port eps s
  else s

/-- Go `UpdateEndpointSlice` (endpointslice.go:210-302). -/
def UpdateEndpointSlice (ok : Nat → Bool) (hostname : String) (epslOld epslNew : EpSlice)
    (s : PState) : PState :=
  let storedEpSl := (authoritativeOld s epslOld epslNew).1
  match processEpSlice epslNew with
  | Except.error _ => s
  | Except.ok info =>
    let s1 := info.foldl (fun acc e => updSliceRow ok hostname storedEpSl e acc) s
    let s2 :=
      match processEpSlice storedEpSl with
      | Except.error _ => s1
      | Except.ok info2 => info2.foldl (fun acc e => updSliceRemoved ok hostname epslNew e acc) s1
    storeEpSlInCache epslNew s2

/-! ## Statement-side definitions and concrete fixtures -/

/-- The virtual-address tuples of a service port, read off the Service object
(cluster IP, then external IPs, then load-balancer IPs). -/
def svcVirtualTuples (svc : Service) (sp : ServicePort) : List NoEndTuple :=
  { fam := svcFam svc, proto := sp.protocol, ip := svc.clusterIP, port := sp.port } ::
    ((svc.externalIPs.map fun ip =>
        { fam := svcFam svc, proto := sp.protocol, ip := ip, port := sp.port }) ++
     (svc.lbIPs.map fun ip =>
        { fam := svcFam svc, proto := sp.protocol, ip := ip, port := sp.port }))

/-- Is this operation a reprogramming of a service chain's dispatch rules
(the driver call `UpdateServiceChain` makes)? -/
def isProgSvcEp : Op → Bool
  | Op.progSvcEndpoints _ _ _ _ => true
  | _ => false

def hasProgSvcEp (l : List Op) : Bool := l.any isProgSvcEp

/-- The endpoint chains a dispatch-programming operation references. -/
def opEpChains : Op → List String
  | Op.progSvcEndpoints _ _ epChains _ => epChains
  | _ => []

/-- Fixture: the service port key default/web:http over TCP. -/
def cKey : ServicePortName := getSvcPortName "web" "default" "http" "TCP"

def cSp : ServicePort := { name := "http", protocol := "TCP", port := 80, nodePort := 0 }

def cSvc : Service :=
  { name := "web", ns := "default", clusterIP := "10.96.0.10", ports := [cSp],
    externalIPs := [], lbIPs := [], resourceVersion := "1" }

/-- Fixture: one already-programmed backend for `cKey`. -/
def cEp : EndpointInfo :=
  { fam := Fam.ipv4, protocol := "TCP", ip := "10.244.1.5", port := 8080,
    isLocal := false, chain := "k8s-nfproxy-sep-XXXXXXXXXXXXXXXX", ruleIDs := [1, 2] }

/-- Fixture: a state in which `cKey` already has a backend but no service. -/
def cPreState : PState := { initState with endpointsMap := [(cKey, [cEp])] }

/-- Fixture: a service map entry under `cKey` for the duplicate-add claim. -/
def dupInfo : SvcInfo :=
  { clusterIP := "10.96.0.10", protocol := "TCP", port := 80, nodePort := 0,
    externalIPs := [], lbIPs := [], svcID := "SVCID", withEndpoints := false, chains := [] }

def c7State : PState := { initState with serviceMap := [(cKey, dupInfo)] }

/-- Fixture: the cached endpoint slice, resource version 5. -/
def c4Cached : EpSlice :=
  { name := "sl1", ns := "default", svcLabel := some "web", resourceVersion := "5",
    endpoints := [{ addresses := ["10.244.1.5"], hostname := none, ready := true }],
    ports := [{ name := "http", port := 8080, protocol := "TCP" }] }

/-- Fixture: the delivered old slice, resource version 7 (newer than cached). -/
def c4Old : EpSlice := { c4Cached with resourceVersion := "7" }

def c4New : EpSlice := { c4Cached with resourceVersion := "9", endpoints := [] }

def c4State : PState := { initState with epslCache := [(("sl1", "default"), c4Cached)] }

/-- Fixture: the Endpoints address matching `cEp`. -/
def c6Addr : EndpointAddress := { ip := "10.244.1.5", hostname := "", nodeName := none }

def c6Port : EndpointPort := { name := "http", port := 8080, protocol := "TCP" }

/-- The ready rows of a processed slice, in order. -/
def readyRows (rows : List epInfo) : List epInfo := rows.filter fun e => e.ready

/-- Programming a list of slice rows in order, ignoring failures. -/
def foldAdds (ok : Nat → Bool) (hostname : String) (rows : List epInfo) (s : PState) : PState :=
  rows.foldl (fun acc e => (addEndpoint ok hostname e.name e.addr e.port acc).2) s

/-- The `addEndpoint` calls one address of a new subset contributes in the
addition phase of `UpdateEndpoints`. -/
def addCallsAddr (old : Endpoints) (key : ServicePortName) (port : EndpointPort)
    (a : EndpointAddress) : List CallEv :=
  if a.ip = "" then []
  else if isPortInSubset old.subsets port then []
  else [CallEv.add key a.ip port.port]

/-- The `addEndpoint` calls of the addition phase of `UpdateEndpoints`, in
traversal order. -/
def addCalls (old new : Endpoints) : List CallEv :=
  (new.subsets.map fun ss =>
    (ss.ports.map fun port =>
      if port.port = 0 then []
      else (ss.addresses.map
        (addCallsAddr old (getSvcPortName new.name new.ns port.name port.protocol) port)).flatten).flatten).flatten

/-- The `deleteEndpoint` calls one address of an old subset contributes. -/
def delCallsAddr (new : Endpoints) (key : ServicePortName) (port : EndpointPort)
    (a : EndpointAddress) : List CallEv :=
  if a.ip = "" then []
  else if isPortInSubset new.subsets port then []
  else [CallEv.del key a.ip port.port]

/-- The (subset, port) pairs the deletion phase walks, in order. -/
def pairsOf (old : Endpoints) : List (EndpointSubset × EndpointPort) :=
  (old.subsets.map fun ss => ss.ports.map fun port => (ss, port)).flatten

/-- The service-port key of a deletion-phase pair. -/
def keyOfPair (old : Endpoints) (sp : EndpointSubset × EndpointPort) : ServicePortName :=
  getSvcPortName old.name old.ns sp.2.name sp.2.protocol

/-- One (subset, port) step of the deletion phase of `UpdateEndpoints`. -/
def delStep (ok : Nat → Bool) (hn : String) (old new : Endpoints) (s : PState)
    (sp : EndpointSubset × EndpointPort) : PState :=
  if sp.2.port = 0 then s
  else
    match alookup s.endpointsMap (keyOfPair old sp) with
    | none => s
    | some eps =>
      sp.1.addresses.foldl
        (fun acc3 addr =>
          if addr.ip = "" then acc3
          else if isPortInSubset new.subsets sp.2 then acc3
          else deleteEndpoint ok hn (keyOfPair old sp) addr sp.2 eps acc3)
        s

/-- The membership condition for an addition call: the (address, port) pair is
valid in `new` and its port (name, number, protocol) is absent from `old`'s
subsets. -/
def AddCond (old new : Endpoints) (k : ServicePortName) (ip : String) (pt : Int) : Prop :=
  ∃ ss ∈ new.subsets, ∃ port ∈ ss.ports, ¬port.port = 0 ∧
    isPortInSubset old.subsets port = false ∧
    ∃ a ∈ ss.addresses, ¬a.ip = "" ∧
      k = getSvcPortName new.name new.ns port.name port.protocol ∧ ip = a.ip ∧ pt = port.port

/-- The deletion calls one (subset, port) pair of `old` contributes, against a
fixed endpoints map `M`. -/
def gdel (old new : Endpoints) (M : List (ServicePortName × List EndpointInfo))
    (sp : EndpointSubset × EndpointPort) : List CallEv :=
  if sp.2.port = 0 then []
  else if (alookup M (keyOfPair old sp)).isSome then
    (sp.1.addresses.map (delCallsAddr new (keyOfPair old sp) sp.2)).flatten
  else []

/-- The `deleteEndpoint` calls of the deletion phase of `UpdateEndpoints`,
computed against a fixed endpoints map `M` (the map as the deletion phase
starts). -/
def delCalls (old new : Endpoints) (M : List (ServicePortName × List EndpointInfo)) :
    List CallEv :=
  ((pairsOf old).map (gdel old new M)).flatten

/-- The membership condition for a deletion call: the (address, port) pair is
valid in `old`, its port is absent from `new`'s subsets, and the service-port
key is present in the endpoints map `M`. -/
def DelCond (old new : Endpoints) (M : List (ServicePortName × List EndpointInfo))
    (k : ServicePortName) (ip : String) (pt : Int) : Prop :=
  ∃ ss ∈ old.subsets, ∃ port ∈ ss.ports, ¬port.port = 0 ∧
    (alookup M (getSvcPortName old.name old.ns port.name port.protocol)).isSome = true ∧
    isPortInSubset new.subsets port = false ∧
    ∃ a ∈ ss.addresses, ¬a.ip = "" ∧
      k = getSvcPortName old.name old.ns port.name port.protocol ∧ ip = a.ip ∧ pt = port.port

/-- Fixture: one backend address on port 8080 (the C2 scenario's old object). -/
def c2Old : Endpoints :=
  { name := "web", ns := "default",
    subsets := [{ addresses := [{ ip := "10.244.1.5", hostname := "", nodeName := none }],
                  ports := [{ name := "http", port := 8080, protocol := "TCP" }] }] }

/-- Fixture: the same subset with a second address added (the C2 new object). -/
def c2New : Endpoints :=
  { name := "web", ns := "default",
    subsets := [{ addresses := [{ ip := "10.244.1.5", hostname := "", nodeName := none },
                                { ip := "10.244.1.6", hostname := "", nodeName := none }],
                  ports := [{ name := "http", port := 8080, protocol := "TCP" }] }] }

/-! ## C5: the no-endpoints invariant over reachable states -/

/-- All cluster IPs stored in the service map are IPv4 (single-stack run). -/
def SvcFams (s : PState) : Prop :=
  ∀ k i, alookup s.serviceMap k = some i → getIPFamily i.clusterIP = Fam.ipv4

/-- Distinct service-map entries have disjoint virtual-address tuple sets. -/
def SvcDisj (s : PState) : Prop :=
  ∀ k1 i1 k2 i2, ¬k1 = k2 → alookup s.serviceMap k1 = some i1 →
    alookup s.serviceMap k2 = some i2 →
    ∀ t ∈ svcNoEndTuples i1 Fam.ipv4, ¬t ∈ svcNoEndTuples i2 Fam.ipv4

/-- The defensible half of the claimed invariant: a service port whose
`withEndpoints` flag is up has none of its virtual addresses in the
no-endpoints set. -/
def SvcOkP (s : PState) : Prop :=
  ∀ k i, alookup s.serviceMap k = some i → i.withEndpoints = true →
    ∀ t ∈ svcNoEndTuples i Fam.ipv4, ¬t ∈ s.noEnd

/-- Every cached endpoint slice carries only IPv4 addresses. -/
def CacheOk (s : PState) : Prop :=
  ∀ p ∈ s.epslCache, ∀ e ∈ (p.2 : EpSlice).endpoints, ∀ a ∈ e.addresses,
    isIPv6String a = false

/-- The inductive invariant: IPv4 families, pairwise-disjoint virtual
addresses, the flag/no-endpoints implication, and an IPv4 slice cache. -/
def Inv (s : PState) : Prop := SvcFams s ∧ SvcDisj s ∧ SvcOkP s ∧ CacheOk s

/-- A v1.Endpoints object whose addresses are all IPv4. -/
def EpIPv4 (ep : Endpoints) : Prop :=
  ∀ ss ∈ ep.subsets, ∀ a ∈ ss.addresses, isIPv6String a.ip = false

/-- An EndpointSlice whose addresses are all IPv4. -/
def SliceIPv4 (epsl : EpSlice) : Prop :=
  ∀ e ∈ epsl.endpoints, ∀ a ∈ e.addresses, isIPv6String a = false

/-- States reachable by handler calls from the empty initial state on a
failure-free driver, in a single-stack (IPv4) cluster whose service virtual
addresses do not collide across service ports. -/
inductive Reach : PState → Prop where
  | init : Reach initState
  | addSvc (svc : Service) (s : PState) :
      Reach s →
      isIPv6String svc.clusterIP = false →
      (∀ sp ∈ svc.ports, ∀ p ∈ s.serviceMap,
        ∀ t ∈ svcVirtualTuples svc sp, ¬t ∈ svcNoEndTuples (p.2 : SvcInfo) Fam.ipv4) →
      (∀ sp1 ∈ svc.ports, ∀ sp2 ∈ svc.ports,
        ¬getSvcPortName svc.name svc.ns sp1.name sp1.protocol =
          getSvcPortName svc.name svc.ns sp2.name sp2.protocol →
        ∀ t ∈ svcVirtualTuples svc sp1, ¬t ∈ svcVirtualTuples svc sp2) →
      Reach (AddServiceH allOk svc s)
  | delSvc (svc : Service) (s : PState) :
      Reach s → Reach (DeleteServiceH allOk svc s)
  | updSvc (svcOld svcNew : Service) (s : PState) :
      Reach s → Reach (UpdateService svcOld svcNew s)
  | addEps (hn : String) (ep : Endpoints) (s : PState) :
      Reach s → EpIPv4 ep → Reach (AddEndpointsH allOk hn ep s)
  | delEps (hn : String) (ep : Endpoints) (s : PState) :
      Reach s → EpIPv4 ep → Reach (DeleteEndpointsH allOk hn ep s)
  | updEps (hn : String) (epOld epNew : Endpoints) (s : PState) :
      Reach s → EpIPv4 epOld → EpIPv4 epNew →
      Reach (UpdateEndpoints allOk hn epOld epNew s)
  | addSlice (hn : String) (epsl : EpSlice) (s : PState) :
      Reach s → SliceIPv4 epsl → Reach (AddEndpointSlice allOk hn epsl s)
  | delSlice (hn : String) (epsl : EpSlice) (s : PState) :
      Reach s → SliceIPv4 epsl → Reach (DeleteEndpointSlice allOk hn epsl s)
  | updSlice (hn : String) (epslOld epslNew : EpSlice) (s : PState) :
      Reach s → SliceIPv4 epslOld → SliceIPv4 epslNew →
      Reach (UpdateEndpointSlice allOk hn epslOld epslNew s)

/-- Fixture: the reachable state of the C5 counterexample — endpoints arrive
first, then the service; its flag is down yet nothing is in the no-endpoints
set. -/
def c5Bad : PState := AddServiceH allOk cSvc (AddEndpointsH allOk "node1" c2Old initState)

/-- Fixture: a reachable state with the flag up — the service is added first
(virtual addresses enter the no-endpoints set), then its endpoints arrive
(`UpdateServiceChain` removes them and raises the flag). -/
def c5Good : PState := AddEndpointsH allOk "node1" c2Old (AddServiceH allOk cSvc initState)

/-- The `cKey` service-map entry of `c5Good`. -/
def c5GoodInfo : SvcInfo := alookupD c5Good.serviceMap cKey dupInfo

/-- The cluster-IP virtual tuple of `cSvc`'s port. -/
def c5GoodTuple : NoEndTuple :=
  { fam := Fam.ipv4, proto := "TCP", ip := "10.96.0.10", port := 80 }

/-- Fixture: the authoritative old slice of the C3 scenario (no endpoints). -/
def c3Old : EpSlice :=
  { name := "sl1", ns := "default", svcLabel := some "web", resourceVersion := "1",
    endpoints := [], ports := [{ name := "http", port := 8080, protocol := "TCP" }] }

/-- Fixture: the new slice with two ready backends. -/
def c3New : EpSlice :=
  { name := "sl1", ns := "default", svcLabel := some "web", resourceVersion := "2",
    endpoints := [{ addresses := ["10.244.1.5"], hostname := none, ready := true },
                  { addresses := ["10.244.1.6"], hostname := none, ready := true }],
    ports := [{ name := "http", port := 8080, protocol := "TCP" }] }

/-- Fixture: the first processed row of `c3New`. -/
def c3Row1 : epInfo :=
  { name := getSvcPortName "web" "default" "http" "TCP"
    addr := { ip := "10.244.1.5", hostname := "", nodeName := none }
    port := { name := "http", port := 8080, protocol := "TCP" }
    ready := true }

/-- Fixture: the second processed row of `c3New`. -/
def c3Row2 : epInfo :=
  { c3Row1 with addr := { ip := "10.244.1.6", hostname := "", nodeName := none } }

/-! ## Association-list and driver lemmas -/

/-- Validation of the SHA-256 embedding against the published test vector for
"abc" (FIPS 180-2). -/
theorem sha256_abc :
    sha256 [97, 98, 99] =
      [186, 120, 22, 191, 143, 1, 207, 234, 65, 65, 64, 222, 93, 174, 34, 35,
       176, 3, 97, 163, 150, 23, 122, 156, 180, 16, 255, 97, 242, 0, 21, 173] := by
  decide

/-- Validation of `portProtoHash` against the value computed by the Go
standard library for the same input. -/
theorem portProtoHash_value :
    portProtoHash "default/web:http" "TCP" = "k8s-nfproxy-svc-TL6HGMALSKADNKEV" := by
  decide

theorem alookup_aset_self {α β : Type} [DecidableEq α] (m : List (α × β)) (k : α) (v : β) :
    alookup (aset m k v) k = some v := by
  induction m with
  | nil => simp [aset, alookup]
  | cons kv rest ih =>
    by_cases h : kv.1 = k
    · simp [aset, h, alookup]
    · simp [aset, h, alookup, ih]

theorem alookup_aset_ne {α β : Type} [DecidableEq α] (m : List (α × β)) (k k' : α) (v : β)
    (h : k ≠ k') : alookup (aset m k v) k' = alookup m k' := by
  induction m with
  | nil => simp [aset, alookup, h]
  | cons kv rest ih =>
    by_cases hk : kv.1 = k
    · simp [aset, hk, alookup, h]
    · by_cases hk' : kv.1 = k'
      · simp [aset, hk, alookup, hk', Ne.symm h]
      · simp [aset, hk, alookup, hk', ih]

theorem alookup_aerase_self {α β : Type} [DecidableEq α] (m : List (α × β)) (k : α) :
    alookup (aerase m k) k = none := by
  induction m with
  | nil => simp [aerase, alookup]
  | cons kv rest ih =>
    by_cases h : kv.1 = k
    · simp [aerase, h, ih]
    · simp [aerase, h, alookup, ih]

theorem alookup_aerase_ne {α β : Type} [DecidableEq α] (m : List (α × β)) (k k' : α)
    (h : k ≠ k') : alookup (aerase m k) k' = alookup m k' := by
  induction m with
  | nil => simp [aerase, alookup]
  | cons kv rest ih =>
    by_cases hk : kv.1 = k
    · have : kv.1 ≠ k' := by rw [hk]; exact h
      simp [aerase, hk, alookup, this, ih, h]
    · simp [aerase, hk, alookup, ih]

theorem drv_allOk (s : PState) (op : Op) (k : Nat) :
    drv allOk s op k =
      (some ((List.range k).map (s.nextRule + ·)),
       { s with trace := s.trace ++ [op], nextRule := s.nextRule + k, calls := s.calls + 1 }) := rfl

theorem hasProgSvcEp_append (l l' : List Op) :
    hasProgSvcEp (l ++ l') = (hasProgSvcEp l || hasProgSvcEp l') := by
  simp [hasProgSvcEp, List.any_append]

theorem mem_insertTuple (l : List NoEndTuple) (t x : NoEndTuple) :
    x ∈ insertTuple l t ↔ x ∈ l ∨ x = t := by
  unfold insertTuple
  by_cases h : t ∈ l
  · simp only [if_pos h]
    constructor
    · exact Or.inl
    · rintro (hx | rfl) <;> [exact hx; exact h]
  · simp [h]

theorem mem_foldl_insertTuple (ts : List NoEndTuple) (l : List NoEndTuple) (x : NoEndTuple) :
    x ∈ ts.foldl insertTuple l ↔ x ∈ l ∨ x ∈ ts := by
  induction ts generalizing l with
  | nil => simp
  | cons t ts ih => simp [List.foldl_cons, ih, mem_insertTuple, or_assoc]

theorem addNoEndTuples_allOk (ts : List NoEndTuple) (s : PState) :
    addNoEndTuples allOk s ts =
      (true, { s with noEnd := ts.foldl insertTuple s.noEnd,
                      trace := s.trace ++ ts.map Op.addNoEnd,
                      calls := s.calls + ts.length }) := by
  induction ts generalizing s with
  | nil => simp [addNoEndTuples]
  | cons t ts ih =>
    simp [addNoEndTuples, drv_allOk, ih, List.append_assoc, Nat.add_assoc, Nat.add_comm,
      Nat.add_left_comm]

theorem addServiceLB_reduce (key : ServicePortName) (sp : ServicePort) (svc : Service)
    (fam : Fam) (info : SvcInfo) (pos : Nat) (s : PState) :
    ∃ info' s',
      addServiceLB allOk key sp svc fam info pos s = addServiceFin allOk key fam info' s' ∧
      info'.withEndpoints = info.withEndpoints ∧ info'.clusterIP = info.clusterIP ∧
      info'.protocol = info.protocol ∧ info'.port = info.port ∧
      info'.externalIPs = info.externalIPs ∧ info'.lbIPs = info.lbIPs ∧
      s'.serviceMap = s.serviceMap ∧ s'.endpointsMap = s.endpointsMap ∧
      s'.noEnd = s.noEnd ∧ s'.epslCache = s.epslCache ∧
      hasProgSvcEp s'.trace = hasProgSvcEp s.trace := by
  unfold addServiceLB
  by_cases h : svc.lbIPs.isEmpty = true
  · rw [if_pos h]
    exact ⟨info, s, rfl, rfl, rfl, rfl, rfl, rfl, rfl, rfl, rfl, rfl, rfl, rfl⟩
  · rw [if_neg h]
    simp only [drv_allOk]
    refine ⟨_, _, rfl, rfl, rfl, rfl, rfl, rfl, rfl, rfl, rfl, rfl, rfl, ?_⟩
    simp [hasProgSvcEp_append, hasProgSvcEp, isProgSvcEp]

theorem addServiceExt_reduce (key : ServicePortName) (sp : ServicePort) (svc : Service)
    (fam : Fam) (cn : String) (info : SvcInfo) (pos : Nat) (s : PState) :
    ∃ info' pos' s',
      addServiceExt allOk key sp svc fam cn info pos s =
        addServiceLB allOk key sp svc fam info' pos' s' ∧
      info'.withEndpoints = info.withEndpoints ∧ info'.clusterIP = info.clusterIP ∧
      info'.protocol = info.protocol ∧ info'.port = info.port ∧
      info'.externalIPs = info.externalIPs ∧ info'.lbIPs = info.lbIPs ∧
      s'.serviceMap = s.serviceMap ∧ s'.endpointsMap = s.endpointsMap ∧
      s'.noEnd = s.noEnd ∧ s'.epslCache = s.epslCache ∧
      hasProgSvcEp s'.trace = hasProgSvcEp s.trace := by
  unfold addServiceExt
  by_cases h : svc.externalIPs.isEmpty = true
  · rw [if_pos h]
    exact ⟨info, pos, s, rfl, rfl, rfl, rfl, rfl, rfl, rfl, rfl, rfl, rfl, rfl, rfl⟩
  · rw [if_neg h]
    simp only [drv_allOk]
    refine ⟨_, _, _, rfl, rfl, rfl, rfl, rfl, rfl, rfl, rfl, rfl, rfl, rfl, ?_⟩
    simp [hasProgSvcEp_append, hasProgSvcEp, isProgSvcEp]

theorem addServiceNP_reduce (key : ServicePortName) (sp : ServicePort) (svc : Service)
    (fam : Fam) (cn : String) (info : SvcInfo) (pos : Nat) (s : PState) :
    ∃ info' pos' s',
      addServiceNP allOk key sp svc fam cn info pos s =
        addServiceExt allOk key sp svc fam cn info' pos' s' ∧
      info'.withEndpoints = info.withEndpoints ∧ info'.clusterIP = info.clusterIP ∧
      info'.protocol = info.protocol ∧ info'.port = info.port ∧
      info'.externalIPs = info.externalIPs ∧ info'.lbIPs = info.lbIPs ∧
      s'.serviceMap = s.serviceMap ∧ s'.endpointsMap = s.endpointsMap ∧
      s'.noEnd = s.noEnd ∧ s'.epslCache = s.epslCache ∧
      hasProgSvcEp s'.trace = hasProgSvcEp s.trace := by
  unfold addServiceNP
  by_cases h : sp.nodePort = 0
  · rw [if_pos h]
    exact ⟨info, pos, s, rfl, rfl, rfl, rfl, rfl, rfl, rfl, rfl, rfl, rfl, rfl, rfl⟩
  · rw [if_neg h]
    simp only [drv_allOk]
    refine ⟨_, _, _, rfl, rfl, rfl, rfl, rfl, rfl, rfl, rfl, rfl, rfl, rfl, ?_⟩
    simp [hasProgSvcEp_append, hasProgSvcEp, isProgSvcEp]

theorem addService_start (key : ServicePortName) (sp : ServicePort) (svc : Service) (s : PState)
    (hfresh : (alookup s.serviceMap key).isSome = false) :
    ∃ cn info' pos' s',
      addService allOk key sp svc s = addServiceNP allOk key sp svc (svcFam svc) cn info' pos' s' ∧
      info'.withEndpoints = false ∧ info'.clusterIP = svc.clusterIP ∧
      info'.protocol = sp.protocol ∧ info'.port = sp.port ∧
      info'.externalIPs = svc.externalIPs ∧ info'.lbIPs = svc.lbIPs ∧
      s'.serviceMap = s.serviceMap ∧ s'.endpointsMap = s.endpointsMap ∧
      s'.noEnd = s.noEnd ∧ s'.epslCache = s.epslCache ∧
      hasProgSvcEp s'.trace = hasProgSvcEp s.trace := by
  unfold addService
  rw [hfresh, if_neg Bool.false_ne_true]
  by_cases hc : svc.clusterIP = ""
  · rw [if_pos hc]
    refine ⟨_, _, _, _, rfl, rfl, rfl, rfl, rfl, rfl, rfl, rfl, rfl, rfl, rfl, ?_⟩
    simp [drv_allOk, hasProgSvcEp_append, hasProgSvcEp, isProgSvcEp]
  · rw [if_neg hc]
    refine ⟨_, _, _, _, rfl, rfl, rfl, rfl, rfl, rfl, rfl, rfl, rfl, rfl, rfl, ?_⟩
    simp [drv_allOk, hasProgSvcEp_append, hasProgSvcEp, isProgSvcEp]

theorem addService_reduce (key : ServicePortName) (sp : ServicePort) (svc : Service) (s : PState)
    (hfresh : (alookup s.serviceMap key).isSome = false) :
    ∃ info' s',
      addService allOk key sp svc s = addServiceFin allOk key (svcFam svc) info' s' ∧
      info'.withEndpoints = false ∧
      info'.clusterIP = svc.clusterIP ∧
      svcNoEndTuples info' (svcFam svc) = svcVirtualTuples svc sp ∧
      s'.serviceMap = s.serviceMap ∧ s'.endpointsMap = s.endpointsMap ∧
      s'.noEnd = s.noEnd ∧ s'.epslCache = s.epslCache ∧
      hasProgSvcEp s'.trace = hasProgSvcEp s.trace := by
  obtain ⟨cn, i1, p1, s1, e1, w1, a1, b1, c1, d1, l1, m1, n1, o1, q1, t1⟩ :=
    addService_start key sp svc s hfresh
  obtain ⟨i2, p2, s2, e2, w2, a2, b2, c2, d2, l2, m2, n2, o2, q2, t2⟩ :=
    addServiceNP_reduce key sp svc (svcFam svc) cn i1 p1 s1
  obtain ⟨i3, p3, s3, e3, w3, a3, b3, c3, d3, l3, m3, n3, o3, q3, t3⟩ :=
    addServiceExt_reduce key sp svc (svcFam svc) cn i2 p2 s2
  obtain ⟨i4, s4, e4, w4, a4, b4, c4, d4, l4, m4, n4, o4, q4, t4⟩ :=
    addServiceLB_reduce key sp svc (svcFam svc) i3 p3 s3
  refine ⟨i4, s4, by rw [e1, e2, e3, e4], by rw [w4, w3, w2, w1], by rw [a4, a3, a2, a1], ?_,
    by rw [m4, m3, m2, m1], by rw [n4, n3, n2, n1], by rw [o4, o3, o2, o1],
    by rw [q4, q3, q2, q1], by rw [t4, t3, t2, t1]⟩
  unfold svcNoEndTuples svcVirtualTuples
  rw [a4, a3, a2, a1, b4, b3, b2, b1, c4, c3, c2, c1, d4, d3, d2, d1, l4, l3, l2, l1]

theorem addServiceFin_facts (key : ServicePortName) (fam : Fam) (info : SvcInfo) (s : PState) :
    (alookup (addServiceFin allOk key fam info s).serviceMap key = some info) ∧
    ((alookupD s.endpointsMap key []).isEmpty = true →
        ∀ t ∈ svcNoEndTuples info fam, t ∈ (addServiceFin allOk key fam info s).noEnd) ∧
    ((alookupD s.endpointsMap key []).isEmpty = false →
        (addServiceFin allOk key fam info s).noEnd = s.noEnd ∧
        (addServiceFin allOk key fam info s).trace = s.trace) := by
  by_cases h : (alookupD s.endpointsMap key []).isEmpty
  · simp only [addServiceFin, addToNoEndpointsList, h, eq_self_iff_true, if_true,
      addNoEndTuples_allOk, writeSvc]
    refine ⟨alookup_aset_self _ _ _, ?_, ?_⟩
    · intro _ t ht
      exact (mem_foldl_insertTuple _ _ _).2 (Or.inr ht)
    · simp
  · have h' : (alookupD s.endpointsMap key []).isEmpty = false := by
      cases hh : (alookupD s.endpointsMap key []).isEmpty
      · rfl
      · exact absurd hh h
    simp only [addServiceFin, h', Bool.false_eq_true, if_false, writeSvc]
    refine ⟨alookup_aset_self _ _ _, ?_, ?_⟩ <;> simp

/-! ## C1: addService on a fresh key vs. the endpoints map -/

/-- C1 (amended): on a fresh key, `addService` always registers the service
with `hasEndpoints = false`.  When `EndpointsMap[key]` is empty the service's
virtual addresses enter the no-endpoints set; when it is non-empty the code
takes no wiring action at all: the no-endpoints set is untouched, no service
chain dispatch programming is issued (`UpdateServiceChain` is not called), and
`hasEndpoints` still ends up false. -/
theorem c1_addService_fresh (key : ServicePortName) (sp : ServicePort) (svc : Service)
    (s : PState) (hfresh : (alookup s.serviceMap key).isSome = false) :
    ((alookup (addService allOk key sp svc s).serviceMap key).map SvcInfo.withEndpoints =
        some false) ∧
    ((alookupD s.endpointsMap key []).isEmpty = true →
        ∀ t ∈ svcVirtualTuples svc sp, t ∈ (addService allOk key sp svc s).noEnd) ∧
    ((alookupD s.endpointsMap key []).isEmpty = false →
        (addService allOk key sp svc s).noEnd = s.noEnd ∧
        hasProgSvcEp (addService allOk key sp svc s).trace = hasProgSvcEp s.trace) := by
  obtain ⟨info', s', heq, hwe, _, htup, hsm, hem, hne, _, htr⟩ :=
    addService_reduce key sp svc s hfresh
  obtain ⟨f1, f2, f3⟩ := addServiceFin_facts key (svcFam svc) info' s'
  rw [heq]
  have hemD : alookupD s'.endpointsMap key ([] : List EndpointInfo) =
      alookupD s.endpointsMap key [] := by rw [hem]
  refine ⟨by simp [f1, hwe], ?_, ?_⟩
  · intro hemp t ht
    rw [← htup] at ht
    exact f2 (by rw [hemD, hemp]) t ht
  · intro hf
    obtain ⟨g1, g2⟩ := f3 (by rw [hemD, hf])
    exact ⟨by rw [g1, hne], by rw [g2, htr]⟩

/-- C1 (counterexample): with a backend already in `EndpointsMap[cKey]` and no
service entry, `addService` leaves `hasEndpoints = false`, issues no service
chain dispatch programming, and adds nothing to the no-endpoints set — against
the claim that `UpdateServiceChain` is called and `hasEndpoints` becomes
true. -/
theorem c1_counterexample :
    (alookup (addService allOk cKey cSp cSvc cPreState).serviceMap cKey).map
        SvcInfo.withEndpoints = some false ∧
    hasProgSvcEp (addService allOk cKey cSp cSvc cPreState).trace = false ∧
    (addService allOk cKey cSp cSvc cPreState).noEnd = [] := by
  refine ⟨?_, ?_, ?_⟩ <;> decide

theorem c1_addService_fresh_witness :
    (alookup cPreState.serviceMap cKey).isSome = false ∧
      ((alookupD cPreState.endpointsMap cKey []).isEmpty = false →
        (addService allOk cKey cSp cSvc cPreState).noEnd = cPreState.noEnd ∧
        hasProgSvcEp (addService allOk cKey cSp cSvc cPreState).trace =
          hasProgSvcEp cPreState.trace) :=
  ⟨by decide, (c1_addService_fresh cKey cSp cSvc cPreState (by decide)).2.2⟩

theorem removeNoEndTuples_allOk (ts : List NoEndTuple) (s : PState) :
    removeNoEndTuples allOk s ts =
      (true, { s with noEnd := ts.foldl removeTuple s.noEnd,
                      trace := s.trace ++ ts.map Op.removeNoEnd,
                      calls := s.calls + ts.length }) := by
  induction ts generalizing s with
  | nil => simp [removeNoEndTuples]
  | cons t ts ih =>
    simp [removeNoEndTuples, drv_allOk, ih, List.append_assoc, Nat.add_assoc, Nat.add_comm,
      Nat.add_left_comm]

theorem UpdateServiceChain_allOk (key : ServicePortName) (fam : Fam) (s : PState) :
    ∃ ops,
      (UpdateServiceChain allOk key fam s).1 = true ∧
      (UpdateServiceChain allOk key fam s).2.trace = s.trace ++ ops ∧
      (UpdateServiceChain allOk key fam s).2.endpointsMap = s.endpointsMap ∧
      (∀ op ∈ ops, isProgSvcEp op = true →
          opEpChains op = (alookupD s.endpointsMap key []).map EndpointInfo.chain) := by
  unfold UpdateServiceChain
  cases hlk : alookup s.serviceMap key with
  | none => exact ⟨[], rfl, by simp, rfl, by simp⟩
  | some entry =>
    dsimp only [getServicePortEndpointChains]
    by_cases hw : entry.withEndpoints = true
    · rw [if_pos hw]
      by_cases he : ((alookupD s.endpointsMap key []).map EndpointInfo.chain).isEmpty = true
      · rw [if_pos he]
        refine ⟨_, rfl, rfl, rfl, ?_⟩
        intro op hop hprog
        simp only [List.mem_singleton] at hop
        subst hop
        exact Bool.noConfusion hprog
      · rw [if_neg he]
        refine ⟨_, rfl, rfl, rfl, ?_⟩
        intro op hop _
        simp only [List.mem_singleton] at hop
        subst hop
        rfl
    · rw [if_neg hw]
      unfold removeFromNoEndpointsList
      rw [removeNoEndTuples_allOk]
      dsimp only [getServicePortEndpointChains]
      by_cases he : ((alookupD s.endpointsMap key []).map EndpointInfo.chain).isEmpty = true
      · rw [if_pos he]
        refine ⟨(svcNoEndTuples entry fam).map Op.removeNoEnd ++
          [Op.delSvcRules fam (k8sSvcChainPfx ++ entry.svcID)
            (alookupD entry.chains (k8sSvcChainPfx ++ entry.svcID) [])], rfl, ?_, rfl, ?_⟩
        · simp [drv_allOk, writeSvc, List.append_assoc]
        · intro op hop hprog
          rcases List.mem_append.1 hop with h | h
          · obtain ⟨t, _, rfl⟩ := List.mem_map.1 h
            exact Bool.noConfusion hprog
          · simp only [List.mem_singleton] at h
            subst h
            exact Bool.noConfusion hprog
      · rw [if_neg he]
        refine ⟨(svcNoEndTuples entry fam).map Op.removeNoEnd ++
          [Op.progSvcEndpoints fam (k8sSvcChainPfx ++ entry.svcID)
            ((alookupD s.endpointsMap key []).map EndpointInfo.chain)
            (alookupD entry.chains (k8sSvcChainPfx ++ entry.svcID) [])], rfl, ?_, rfl, ?_⟩
        · simp [drv_allOk, writeSvc, List.append_assoc]
        · intro op hop hprog
          rcases List.mem_append.1 hop with h | h
          · obtain ⟨t, _, rfl⟩ := List.mem_map.1 h
            exact Bool.noConfusion hprog
          · simp only [List.mem_singleton] at h
            subst h
            rfl

theorem mem_map_addNoEnd_not_prog (ops : List NoEndTuple) :
    ∀ op ∈ ops.map Op.addNoEnd, isProgSvcEp op = false := by
  intro op hop
  obtain ⟨t, _, rfl⟩ := List.mem_map.1 hop
  rfl

theorem deleteEndpointRules_allOk (key : ServicePortName) (fam : Fam) (cn : String)
    (ids : List Nat) (s : PState) :
    ∃ ops1 ops2,
      (deleteEndpointRules allOk key fam cn ids s).1 = true ∧
      (deleteEndpointRules allOk key fam cn ids s).2.trace =
        s.trace ++ ops1 ++ [Op.delEpRules fam cn ids, Op.delChain fam cn] ++ ops2 ∧
      (∀ op ∈ ops1, isProgSvcEp op = true →
          opEpChains op = (alookupD s.endpointsMap key []).map EndpointInfo.chain) ∧
      (∀ op ∈ ops2, isProgSvcEp op = false) := by
  unfold deleteEndpointRules
  obtain ⟨ops1, h1, h2, h3, h4⟩ := UpdateServiceChain_allOk key fam s
  cases hU : UpdateServiceChain allOk key fam s with
  | mk b s1 =>
    rw [hU] at h1 h2 h3
    simp only at h1 h2 h3
    subst h1
    dsimp only
    rw [drv_allOk]
    dsimp only
    rw [drv_allOk]
    dsimp only
    rw [h3]
    by_cases he : (alookupD s.endpointsMap key []).isEmpty = true
    · rw [if_pos he]
      cases hsv : alookup s1.serviceMap key with
      | none =>
        refine ⟨ops1, [], rfl, ?_, h4, by simp⟩
        simp [writeSvc, h2, List.append_assoc]
      | some svc =>
        dsimp only
        unfold addToNoEndpointsList
        rw [addNoEndTuples_allOk]
        dsimp only
        refine ⟨ops1, (svcNoEndTuples svc (getIPFamily svc.clusterIP)).map Op.addNoEnd,
          rfl, ?_, h4, mem_map_addNoEnd_not_prog _⟩
        simp [writeSvc, h2, List.append_assoc]
    · rw [if_neg he]
      refine ⟨ops1, [], rfl, ?_, h4, by simp⟩
      simp [writeSvc, h2, List.append_assoc]

theorem delLoop_skip (ok : Nat → Bool) (key : ServicePortName) (fam : Fam)
    (ep2d : EndpointInfo) (eps : List EndpointInfo) (pre rest : List EndpointInfo)
    (i : Nat) (s : PState) :
    (∀ e ∈ pre, epEq e ep2d = false) →
    delLoop ok key fam ep2d eps (pre ++ rest) i s =
      delLoop ok key fam ep2d eps rest (i + pre.length) s := by
  induction pre generalizing i with
  | nil => intro _; simp
  | cons e pre ih =>
    intro h
    have he := h e (List.mem_cons_self _ _)
    rw [List.cons_append]
    simp only [delLoop, he, Bool.false_eq_true, if_false]
    rw [ih (i + 1) fun x hx => h x (List.mem_cons_of_mem _ hx)]
    congr 1
    simp only [List.length_cons]
    omega

theorem delLoop_nomatch (ok : Nat → Bool) (key : ServicePortName) (fam : Fam)
    (ep2d : EndpointInfo) (eps : List EndpointInfo) (rest : List EndpointInfo)
    (i : Nat) (s : PState) :
    (∀ e ∈ rest, epEq e ep2d = false) →
    delLoop ok key fam ep2d eps rest i s = s := by
  induction rest generalizing i with
  | nil => intro _; rfl
  | cons e rest ih =>
    intro h
    have he := h e (List.mem_cons_self _ _)
    simp only [delLoop, he, Bool.false_eq_true, if_false]
    exact ih (i + 1) fun x hx => h x (List.mem_cons_of_mem _ hx)

theorem take_append_cons (pre post : List EndpointInfo) (ep : EndpointInfo) :
    (pre ++ ep :: post).take pre.length = pre := by
  induction pre with
  | nil => rfl
  | cons e pre ih => simp [ih]

theorem drop_append_cons (pre post : List EndpointInfo) (ep : EndpointInfo) :
    (pre ++ ep :: post).drop (pre.length + 1) = post := by
  induction pre with
  | nil => rfl
  | cons e pre ih => simp only [List.length_cons, List.cons_append, List.drop_succ_cons]; exact ih

/-! ## C6: ordering of driver operations in deleteEndpoint -/

/-- C6: when `deleteEndpoint` finds its (unique) matching EndpointInfo `ep`
among `pre ++ ep :: post`, the issued operations are, in order: the service
chain reprogramming of `UpdateServiceChain` (whose dispatch rules no longer
mention `ep.chain`, given that no other endpoint shares that chain), then the
deletion of the endpoint chain's rules, then the deletion of the endpoint
chain; every dispatch-programming operation precedes the chain deletion and
omits the deleted chain, and nothing after the chain deletion programs
dispatch rules. -/
theorem c6_delete_order (hostname : String) (key : ServicePortName)
    (addr : EndpointAddress) (port : EndpointPort) (pre post : List EndpointInfo)
    (ep : EndpointInfo) (s : PState)
    (hpre : ∀ e ∈ pre, epEq e (delTarget hostname addr port) = false)
    (hpost : ∀ e ∈ post, epEq e (delTarget hostname addr port) = false)
    (hmatch : epEq ep (delTarget hostname addr port) = true)
    (hchain : ep.chain ∉ (pre ++ post).map EndpointInfo.chain) :
    ∃ ops1 ops2,
      (deleteEndpoint allOk hostname key addr port (pre ++ ep :: post) s).trace =
        s.trace ++ ops1 ++
          [Op.delEpRules (getIPFamily addr.ip) ep.chain ep.ruleIDs,
           Op.delChain (getIPFamily addr.ip) ep.chain] ++ ops2 ∧
      (∀ op ∈ ops1, isProgSvcEp op = true → ep.chain ∉ opEpChains op) ∧
      (∀ op ∈ ops2, isProgSvcEp op = false) := by
  unfold deleteEndpoint
  rw [delLoop_skip allOk key (getIPFamily addr.ip) (delTarget hostname addr port) _ pre
    (ep :: post) 0 _ hpre]
  simp only [delLoop, hmatch, if_true, Nat.zero_add]
  rw [take_append_cons, drop_append_cons]
  set s0 : PState :=
    { s with callLog := s.callLog ++ [CallEv.del key addr.ip port.port] } with hs0
  set s1 : PState :=
    { s0 with endpointsMap := aset s0.endpointsMap key (pre ++ post) } with hs1
  obtain ⟨ops1, ops2, g1, g2, g3, g4⟩ :=
    deleteEndpointRules_allOk key (getIPFamily addr.ip) ep.chain ep.ruleIDs s1
  cases hD : deleteEndpointRules allOk key (getIPFamily addr.ip) ep.chain ep.ruleIDs s1 with
  | mk b s2 =>
    rw [hD] at g1 g2
    dsimp only at g1 g2
    subst g1
    dsimp only
    rw [delLoop_nomatch allOk key (getIPFamily addr.ip) (delTarget hostname addr port) _ post
      _ _ hpost]
    refine ⟨ops1, ops2, ?_, ?_, g4⟩
    · rw [g2]
    · intro op hop hprog
      have := g3 op hop hprog
      rw [this]
      have hm : alookupD s1.endpointsMap key ([] : List EndpointInfo) = pre ++ post := by
        simp [hs1, alookupD, alookup_aset_self]
      rw [hm]
      exact hchain

theorem c6_delete_order_witness :
    (∀ e ∈ ([] : List EndpointInfo), epEq e (delTarget "node1" c6Addr c6Port) = false) ∧
    epEq cEp (delTarget "node1" c6Addr c6Port) = true ∧
    cEp.chain ∉ (([] ++ []: List EndpointInfo)).map EndpointInfo.chain ∧
    (∃ ops1 ops2,
      (deleteEndpoint allOk "node1" cKey c6Addr c6Port ([] ++ cEp :: []) cPreState).trace =
        cPreState.trace ++ ops1 ++
          [Op.delEpRules (getIPFamily c6Addr.ip) cEp.chain cEp.ruleIDs,
           Op.delChain (getIPFamily c6Addr.ip) cEp.chain] ++ ops2 ∧
      (∀ op ∈ ops1, isProgSvcEp op = true → cEp.chain ∉ opEpChains op) ∧
      (∀ op ∈ ops2, isProgSvcEp op = false)) :=
  ⟨by simp, by decide, by simp,
    c6_delete_order "node1" cKey c6Addr c6Port [] [] cEp cPreState (by simp) (by simp)
      (by decide) (by simp)⟩

theorem drv_epslCache (ok : Nat → Bool) (s : PState) (op : Op) (k : Nat) :
    (drv ok s op k).2.epslCache = s.epslCache := by
  unfold drv
  split <;> rfl

theorem addNoEndTuples_epslCache (ok : Nat → Bool) (ts : List NoEndTuple) (s : PState) :
    (addNoEndTuples ok s ts).2.epslCache = s.epslCache := by
  induction ts generalizing s with
  | nil => rfl
  | cons t ts ih =>
    have h1 := drv_epslCache ok s (Op.addNoEnd t) 0
    simp only [addNoEndTuples]
    cases hd : drv ok s (Op.addNoEnd t) 0 with
    | mk r s1 =>
      rw [hd] at h1
      cases r
      · exact h1
      · exact (ih _).trans h1

theorem removeNoEndTuples_epslCache (ok : Nat → Bool) (ts : List NoEndTuple) (s : PState) :
    (removeNoEndTuples ok s ts).2.epslCache = s.epslCache := by
  induction ts generalizing s with
  | nil => rfl
  | cons t ts ih =>
    have h1 := drv_epslCache ok s (Op.removeNoEnd t) 0
    simp only [removeNoEndTuples]
    cases hd : drv ok s (Op.removeNoEnd t) 0 with
    | mk r s1 =>
      rw [hd] at h1
      cases r
      · exact h1
      · exact (ih _).trans h1

theorem UpdateServiceChain_epslCache (ok : Nat → Bool) (key : ServicePortName) (fam : Fam)
    (s : PState) : (UpdateServiceChain ok key fam s).2.epslCache = s.epslCache := by
  unfold UpdateServiceChain
  cases hlk : alookup s.serviceMap key with
  | none => rfl
  | some entry =>
    dsimp only
    by_cases hw : entry.withEndpoints = true
    · rw [if_pos hw]
      split <;> split <;>
      · simp only [writeSvc]
        rename_i s1 heq
        exact (congrArg (fun p => p.2.epslCache) heq).symm.trans (drv_epslCache _ _ _ _)
    · rw [if_neg hw]
      have h1 := removeNoEndTuples_epslCache ok (svcNoEndTuples entry fam) s
      unfold removeFromNoEndpointsList
      cases hr : removeNoEndTuples ok s (svcNoEndTuples entry fam) with
      | mk b s1 =>
        rw [hr] at h1
        cases b <;>
        · dsimp only
          split <;> split <;>
          · simp only [writeSvc]
            rename_i s2 heq
            exact (congrArg (fun p => p.2.epslCache) heq).symm.trans
              ((drv_epslCache _ _ _ _).trans h1)

theorem addEndpoint_epslCache (ok : Nat → Bool) (hostname : String) (key : ServicePortName)
    (addr : EndpointAddress) (port : EndpointPort) (s : PState) :
    (addEndpoint ok hostname key addr port s).2.epslCache = s.epslCache := by
  simp only [addEndpoint]
  split
  · rename_i s1 heq
    exact (congrArg (fun p => p.2.epslCache) heq).symm.trans (drv_epslCache _ _ _ _)
  · rename_i ids s1 heq
    have h1 := (congrArg (fun p => p.2.epslCache) heq).symm.trans (drv_epslCache _ _ _ _)
    exact (UpdateServiceChain_epslCache ok key (getIPFamily addr.ip) _).trans h1

theorem addSliceLoop_epslCache (ok : Nat → Bool) (hostname : String) :
    ∀ (rows : List epInfo) (s : PState),
      (addSliceLoop ok hostname rows s).epslCache = s.epslCache
  | [], _ => rfl
  | e :: rows, s => by
    simp only [addSliceLoop]
    by_cases hr : e.ready = true
    · rw [hr]
      have h1 := addEndpoint_epslCache ok hostname e.name e.addr e.port s
      cases hA : addEndpoint ok hostname e.name e.addr e.port s with
      | mk b s1 =>
        rw [hA] at h1
        cases b
        · exact h1
        · exact (addSliceLoop_epslCache ok hostname rows s1).trans h1
    · have hr' : e.ready = false := by
        cases hv : e.ready
        · rfl
        · exact absurd hv hr
      rw [hr']
      exact addSliceLoop_epslCache ok hostname rows s

theorem foldAdds_cons (ok : Nat → Bool) (hostname : String) (e : epInfo) (rows : List epInfo)
    (s : PState) :
    foldAdds ok hostname (e :: rows) s =
      foldAdds ok hostname rows (addEndpoint ok hostname e.name e.addr e.port s).2 := rfl

theorem addSliceLoop_decomp (ok : Nat → Bool) (hostname : String) :
    ∀ (rows : List epInfo) (s : PState),
      ∃ pre post, readyRows rows = pre ++ post ∧
        ((post = [] ∧ addSliceLoop ok hostname rows s = foldAdds ok hostname pre s) ∨
         (∃ e rest, post = e :: rest ∧
           (addEndpoint ok hostname e.name e.addr e.port (foldAdds ok hostname pre s)).1 = false ∧
           addSliceLoop ok hostname rows s =
             (addEndpoint ok hostname e.name e.addr e.port (foldAdds ok hostname pre s)).2))
  | [], s => ⟨[], [], rfl, Or.inl ⟨rfl, rfl⟩⟩
  | e :: rows, s => by
    simp only [addSliceLoop]
    by_cases hr : e.ready = true
    · rw [hr]
      have hcons : readyRows (e :: rows) = e :: readyRows rows := by
        simp [readyRows, List.filter_cons, hr]
      simp only [Bool.not_true, Bool.false_eq_true, if_false]
      cases hA : addEndpoint ok hostname e.name e.addr e.port s with
      | mk b s1 =>
        cases b
        · dsimp only
          refine ⟨[], e :: readyRows rows, by rw [hcons]; rfl, Or.inr ⟨e, readyRows rows,
            rfl, ?_, ?_⟩⟩
          · show (addEndpoint ok hostname e.name e.addr e.port s).1 = false
            rw [hA]
          · show s1 = (addEndpoint ok hostname e.name e.addr e.port s).2
            rw [hA]
        · dsimp only
          obtain ⟨pre, post, hsplit, hrest⟩ := addSliceLoop_decomp ok hostname rows s1
          refine ⟨e :: pre, post, by rw [hcons, hsplit]; rfl, ?_⟩
          have hf : foldAdds ok hostname (e :: pre) s = foldAdds ok hostname pre s1 := by
            rw [foldAdds_cons, hA]
          rcases hrest with ⟨hp, heq⟩ | ⟨e', rest, hp, hfail, heq⟩
          · exact Or.inl ⟨hp, by rw [heq, hf]⟩
          · exact Or.inr ⟨e', rest, hp, by rw [hf]; exact hfail, by rw [heq, hf]⟩
    · have hr' : e.ready = false := by
        cases hv : e.ready
        · rfl
        · exact absurd hv hr
      rw [hr']
      simp only [Bool.not_false, if_true]
      have hskip : readyRows (e :: rows) = readyRows rows := by
        simp [readyRows, List.filter_cons, hr']
      obtain ⟨pre, post, hsplit, hrest⟩ := addSliceLoop_decomp ok hostname rows s
      exact ⟨pre, post, by rw [hskip, hsplit], hrest⟩

/-! ## C9: AddEndpointSlice caches first and stops at the first failure -/

/-- C9: `AddEndpointSlice` stores the slice in the cache before programming
anything (the handler equals a fold of `addEndpoint` over a prefix of the
ready rows started from the cached state, and the final cache holds the new
slice regardless of failures); if some ready row's `addEndpoint` fails, the
handler stops there — rows programmed before the failure remain in effect,
the ready rows after the failing one are never processed, and no rollback of
any kind happens. -/
theorem c9_addEndpointSlice (ok : Nat → Bool) (hostname : String) (epsl : EpSlice)
    (s : PState) (info : List epInfo) (hok : processEpSlice epsl = Except.ok info) :
    (AddEndpointSlice ok hostname epsl s).epslCache =
        aset s.epslCache (epsl.name, epsl.ns) epsl ∧
    (∃ pre post, readyRows info = pre ++ post ∧
      ((post = [] ∧ AddEndpointSlice ok hostname epsl s =
          foldAdds ok hostname pre (storeEpSlInCache epsl s)) ∨
       (∃ e rest, post = e :: rest ∧
         (addEndpoint ok hostname e.name e.addr e.port
            (foldAdds ok hostname pre (storeEpSlInCache epsl s))).1 = false ∧
         AddEndpointSlice ok hostname epsl s =
           (addEndpoint ok hostname e.name e.addr e.port
              (foldAdds ok hostname pre (storeEpSlInCache epsl s))).2))) := by
  unfold AddEndpointSlice
  rw [hok]
  dsimp only
  constructor
  · exact (addSliceLoop_epslCache ok hostname info (storeEpSlInCache epsl s)).trans rfl
  · exact addSliceLoop_decomp ok hostname info (storeEpSlInCache epsl s)

theorem c9_addEndpointSlice_witness :
    processEpSlice c4Cached =
      Except.ok [{ name := cKey, addr := c6Addr, port := c6Port, ready := true }] ∧
    (AddEndpointSlice allOk "node1" c4Cached initState).epslCache =
      aset initState.epslCache (c4Cached.name, c4Cached.ns) c4Cached :=
  ⟨rfl,
   (c9_addEndpointSlice allOk "node1" c4Cached initState
      [{ name := cKey, addr := c6Addr, port := c6Port, ready := true }] rfl).1⟩

/-! ## C8: chain-name determinism -/

/-- C8: `portProtoHash` and `servicePortEndpointChainName` are the fixed
prefixes followed by the first 16 characters of the upper-case base32 encoding
of the SHA-256 digest of their concatenated inputs, and equal inputs give
equal chain names. -/
theorem c8_chain_names :
    (∀ spn proto, portProtoHash spn proto =
        "k8s-nfproxy-svc-" ++ (base32encode (sha256 (strBytes (spn ++ proto)))).take 16) ∧
    (∀ spn proto ep, servicePortEndpointChainName spn proto ep =
        "k8s-nfproxy-sep-" ++ (base32encode (sha256 (strBytes (spn ++ proto ++ ep)))).take 16) ∧
    (∀ a b c d, a = c → b = d → portProtoHash a b = portProtoHash c d) ∧
    (∀ a b c d e f, a = d → b = e → c = f →
        servicePortEndpointChainName a b c = servicePortEndpointChainName d e f) := by
  refine ⟨fun _ _ => rfl, fun _ _ _ => rfl, ?_, ?_⟩
  · intro a b c d h1 h2; rw [h1, h2]
  · intro a b c d e f h1 h2 h3; rw [h1, h2, h3]

theorem c8_chain_names_witness :
    ("default/web:http" : String) = "default/web:http" ∧ ("TCP" : String) = "TCP" ∧
      portProtoHash "default/web:http" "TCP" = portProtoHash "default/web:http" "TCP" :=
  ⟨rfl, rfl, c8_chain_names.2.2.1 "default/web:http" "TCP" "default/web:http" "TCP" rfl rfl⟩

/-! ## C10: nil-pointer dereference before the nil guard -/

/-- C10: `AddService(nil)` and `DeleteService(nil)` dereference the service
pointer for the log line before the nil guard, so a nil argument faults and
the guard never produces a clean return. -/
theorem c10_nil_service_faults :
    ∀ (ok : Nat → Bool) (s : PState),
      AddServiceGo ok none s = GoResult.nilPanic ∧
      DeleteServiceGo ok none s = GoResult.nilPanic :=
  fun _ _ => ⟨rfl, rfl⟩

/-! ## C7: duplicate addService is a no-op -/

/-- C7: an `addService` call whose key is already in the service map returns
immediately: the service map, endpoints map, no-endpoints set and the issued
kernel operations are all unchanged (the whole state is equal). -/
theorem c7_duplicate_addService (ok : Nat → Bool) (key : ServicePortName)
    (sp : ServicePort) (svc : Service) (s : PState)
    (h : (alookup s.serviceMap key).isSome = true) :
    addService ok key sp svc s = s := by
  unfold addService
  simp [h]

theorem c7_duplicate_addService_witness :
    (alookup c7State.serviceMap cKey).isSome = true ∧
      addService allOk cKey cSp cSvc c7State = c7State :=
  ⟨by decide, c7_duplicate_addService allOk cKey cSp cSvc c7State (by decide)⟩

/-! ## C4: stale cached slice is preferred over a newer delivered old -/

/-! ## C2 support: call-log accounting for UpdateEndpoints -/

theorem drv_keeps (ok : Nat → Bool) (s : PState) (op : Op) (k : Nat) :
    (drv ok s op k).2.endpointsMap = s.endpointsMap ∧
    (drv ok s op k).2.epslCache = s.epslCache ∧
    (drv ok s op k).2.callLog = s.callLog ∧
    (drv ok s op k).2.serviceMap = s.serviceMap ∧
    (drv ok s op k).2.noEnd = s.noEnd := by
  unfold drv
  split <;> exact ⟨rfl, rfl, rfl, rfl, rfl⟩

theorem drv_eq_keeps {ok : Nat → Bool} {s : PState} {op : Op} {k : Nat}
    {r : Option (List Nat)} {s' : PState} (heq : drv ok s op k = (r, s')) :
    s'.endpointsMap = s.endpointsMap ∧ s'.epslCache = s.epslCache ∧ s'.callLog = s.callLog ∧
    s'.serviceMap = s.serviceMap ∧ s'.noEnd = s.noEnd := by
  have h := drv_keeps ok s op k
  rw [heq] at h
  exact h

theorem addNoEndTuples_keeps (ok : Nat → Bool) (ts : List NoEndTuple) (s : PState) :
    (addNoEndTuples ok s ts).2.endpointsMap = s.endpointsMap ∧
    (addNoEndTuples ok s ts).2.epslCache = s.epslCache ∧
    (addNoEndTuples ok s ts).2.callLog = s.callLog ∧
    (addNoEndTuples ok s ts).2.serviceMap = s.serviceMap := by
  induction ts generalizing s with
  | nil => exact ⟨rfl, rfl, rfl, rfl⟩
  | cons t ts ih =>
    simp only [addNoEndTuples]
    cases hd : drv ok s (Op.addNoEnd t) 0 with
    | mk r s1 =>
      obtain ⟨e1, e2, e3, e4, _⟩ := drv_eq_keeps hd
      cases r
      · exact ⟨e1, e2, e3, e4⟩
      · exact ⟨((ih _).1).trans e1, ((ih _).2.1).trans e2, ((ih _).2.2.1).trans e3,
          ((ih _).2.2.2).trans e4⟩

theorem removeNoEndTuples_keeps (ok : Nat → Bool) (ts : List NoEndTuple) (s : PState) :
    (removeNoEndTuples ok s ts).2.endpointsMap = s.endpointsMap ∧
    (removeNoEndTuples ok s ts).2.epslCache = s.epslCache ∧
    (removeNoEndTuples ok s ts).2.callLog = s.callLog ∧
    (removeNoEndTuples ok s ts).2.serviceMap = s.serviceMap := by
  induction ts generalizing s with
  | nil => exact ⟨rfl, rfl, rfl, rfl⟩
  | cons t ts ih =>
    simp only [removeNoEndTuples]
    cases hd : drv ok s (Op.removeNoEnd t) 0 with
    | mk r s1 =>
      obtain ⟨e1, e2, e3, e4, _⟩ := drv_eq_keeps hd
      cases r
      · exact ⟨e1, e2, e3, e4⟩
      · exact ⟨((ih _).1).trans e1, ((ih _).2.1).trans e2, ((ih _).2.2.1).trans e3,
          ((ih _).2.2.2).trans e4⟩

theorem UpdateServiceChain_keeps (ok : Nat → Bool) (key : ServicePortName) (fam : Fam)
    (s : PState) :
    (UpdateServiceChain ok key fam s).2.endpointsMap = s.endpointsMap ∧
    (UpdateServiceChain ok key fam s).2.epslCache = s.epslCache ∧
    (UpdateServiceChain ok key fam s).2.callLog = s.callLog := by
  unfold UpdateServiceChain
  cases hlk : alookup s.serviceMap key with
  | none => exact ⟨rfl, rfl, rfl⟩
  | some entry =>
    dsimp only
    by_cases hw : entry.withEndpoints = true
    · rw [if_pos hw]
      split <;> split <;>
      · simp only [writeSvc]
        rename_i s1 heq
        obtain ⟨e1, e2, e3, _, _⟩ := drv_eq_keeps heq
        exact ⟨e1, e2, e3⟩
    · rw [if_neg hw]
      have h1 := removeNoEndTuples_keeps ok (svcNoEndTuples entry fam) s
      unfold removeFromNoEndpointsList
      cases hr : removeNoEndTuples ok s (svcNoEndTuples entry fam) with
      | mk b s1 =>
        rw [hr] at h1
        cases b <;>
        · dsimp only
          split <;> split <;>
          · simp only [writeSvc]
            rename_i s2 heq
            obtain ⟨e1, e2, e3, _, _⟩ := drv_eq_keeps heq
            exact ⟨e1.trans h1.1, e2.trans h1.2.1, e3.trans h1.2.2.1⟩

theorem addEndpoint_callLog (ok : Nat → Bool) (hn : String) (key : ServicePortName)
    (addr : EndpointAddress) (port : EndpointPort) (s : PState) :
    (addEndpoint ok hn key addr port s).2.callLog =
      s.callLog ++ [CallEv.add key addr.ip port.port] := by
  simp only [addEndpoint]
  split
  · rename_i s1 heq
    exact (drv_eq_keeps heq).2.2.1
  · rename_i ids s1 heq
    have h1 := (drv_eq_keeps heq).2.2.1
    exact ((UpdateServiceChain_keeps ok key (getIPFamily addr.ip) _).2.2).trans h1

theorem deleteEndpointRules_keeps (ok : Nat → Bool) (key : ServicePortName) (fam : Fam)
    (cn : String) (ids : List Nat) (s : PState) :
    (deleteEndpointRules ok key fam cn ids s).2.epslCache = s.epslCache ∧
    (deleteEndpointRules ok key fam cn ids s).2.callLog = s.callLog ∧
    (∀ k', k' ≠ key →
      alookup (deleteEndpointRules ok key fam cn ids s).2.endpointsMap k' =
        alookup s.endpointsMap k') := by
  unfold deleteEndpointRules
  have hU := UpdateServiceChain_keeps ok key fam s
  cases hUc : UpdateServiceChain ok key fam s with
  | mk b s1 =>
    rw [hUc] at hU
    obtain ⟨u1, u2, u3⟩ := hU
    cases b
    · exact ⟨u2, u3, fun k' _ => congrArg (fun m => alookup m k') u1⟩
    · dsimp only
      split
      · rename_i s2 heq
        obtain ⟨e1, e2, e3, _, _⟩ := drv_eq_keeps heq
        exact ⟨e2.trans u2, e3.trans u3,
          fun k' _ => congrArg (fun m => alookup m k') (e1.trans u1)⟩
      · rename_i v2 s2 heq
        obtain ⟨e1, e2, e3, _, _⟩ := drv_eq_keeps heq
        cases hd3 : drv ok s2 (Op.delChain fam cn) 0 with
        | mk r3 s3 =>
          obtain ⟨f1, f2, f3, _, _⟩ := drv_eq_keeps hd3
          have hm3 : s3.endpointsMap = s.endpointsMap := (f1.trans e1).trans u1
          have hc3 : s3.epslCache = s.epslCache := (f2.trans e2).trans u2
          have hl3 : s3.callLog = s.callLog := (f3.trans e3).trans u3
          split
          · split
            · exact ⟨hc3, hl3, fun k' hk => by
                dsimp only
                rw [alookup_aerase_ne _ _ _ (Ne.symm hk)]
                exact congrArg (fun m => alookup m k') hm3⟩
            · rename_i svc hsv
              split
              · rename_i s' heq'
                unfold addToNoEndpointsList at heq'
                have hT := addNoEndTuples_keeps ok
                  (svcNoEndTuples svc (getIPFamily svc.clusterIP)) s3
                rw [heq'] at hT
                obtain ⟨t1, t2, t3, _⟩ := hT
                exact ⟨t2.trans hc3, t3.trans hl3, fun k' hk => by
                  dsimp only
                  rw [alookup_aerase_ne _ _ _ (Ne.symm hk)]
                  exact congrArg (fun m => alookup m k') (t1.trans hm3)⟩
              · rename_i s' heq'
                unfold addToNoEndpointsList at heq'
                have hT := addNoEndTuples_keeps ok
                  (svcNoEndTuples svc (getIPFamily svc.clusterIP)) s3
                rw [heq'] at hT
                obtain ⟨t1, t2, t3, _⟩ := hT
                refine ⟨t2.trans hc3, t3.trans hl3, fun k' hk => ?_⟩
                dsimp only [writeSvc]
                rw [alookup_aerase_ne _ _ _ (Ne.symm hk)]
                exact congrArg (fun m => alookup m k') (t1.trans hm3)
          · exact ⟨hc3, hl3, fun k' _ => congrArg (fun m => alookup m k') hm3⟩

theorem delLoop_keeps (ok : Nat → Bool) (key : ServicePortName) (fam : Fam)
    (ep2d : EndpointInfo) (eps : List EndpointInfo) :
    ∀ (rest : List EndpointInfo) (i : Nat) (s : PState),
      (delLoop ok key fam ep2d eps rest i s).epslCache = s.epslCache ∧
      (delLoop ok key fam ep2d eps rest i s).callLog = s.callLog ∧
      (∀ k', k' ≠ key →
        alookup (delLoop ok key fam ep2d eps rest i s).endpointsMap k' =
          alookup s.endpointsMap k')
  | [], _, _ => ⟨rfl, rfl, fun _ _ => rfl⟩
  | ep :: rest, i, s => by
    simp only [delLoop]
    by_cases hm : epEq ep ep2d = true
    · rw [hm]
      simp only [if_true]
      have hD := deleteEndpointRules_keeps ok key fam ep.chain ep.ruleIDs
        { s with endpointsMap := aset s.endpointsMap key (eps.take i ++ eps.drop (i + 1)) }
      cases hDc : deleteEndpointRules ok key fam ep.chain ep.ruleIDs
          { s with endpointsMap := aset s.endpointsMap key (eps.take i ++ eps.drop (i + 1)) } with
      | mk b s2 =>
        rw [hDc] at hD
        obtain ⟨d1, d2, d3⟩ := hD
        have hset : ∀ k', k' ≠ key →
            alookup s2.endpointsMap k' = alookup s.endpointsMap k' := by
          intro k' hk
          rw [d3 k' hk]
          exact alookup_aset_ne _ _ _ _ (Ne.symm hk)
        cases b
        · exact ⟨d1, d2, hset⟩
        · obtain ⟨i1, i2, i3⟩ := delLoop_keeps ok key fam ep2d eps rest (i + 1) s2
          exact ⟨i1.trans d1, i2.trans d2,
            fun k' hk => (i3 k' hk).trans (hset k' hk)⟩
    · have hm' : epEq ep ep2d = false := by
        cases hv : epEq ep ep2d
        · rfl
        · exact absurd hv hm
      rw [hm']
      simp only [Bool.false_eq_true, if_false]
      exact delLoop_keeps ok key fam ep2d eps rest (i + 1) s

theorem deleteEndpoint_keeps (ok : Nat → Bool) (hn : String) (key : ServicePortName)
    (addr : EndpointAddress) (port : EndpointPort) (eps : List EndpointInfo) (s : PState) :
    (deleteEndpoint ok hn key addr port eps s).epslCache = s.epslCache ∧
    (deleteEndpoint ok hn key addr port eps s).callLog =
      s.callLog ++ [CallEv.del key addr.ip port.port] ∧
    (∀ k', k' ≠ key →
      alookup (deleteEndpoint ok hn key addr port eps s).endpointsMap k' =
        alookup s.endpointsMap k') := by
  unfold deleteEndpoint
  obtain ⟨h1, h2, h3⟩ := delLoop_keeps ok key (getIPFamily addr.ip) (delTarget hn addr port)
    eps eps 0 { s with callLog := s.callLog ++ [CallEv.del key addr.ip port.port] }
  exact ⟨h1, h2, h3⟩

theorem foldl_callLog_flatten {α : Type} (f : PState → α → PState) (g : α → List CallEv)
    (hf : ∀ s a, (f s a).callLog = s.callLog ++ g a) :
    ∀ (l : List α) (s : PState), (l.foldl f s).callLog = s.callLog ++ (l.map g).flatten := by
  intro l
  induction l with
  | nil => intro s; simp
  | cons a l ih =>
    intro s
    simp only [List.foldl_cons, List.map_cons, List.flatten_cons]
    rw [ih, hf, List.append_assoc]

theorem foldl_otherKeys {α : Type} (f : PState → α → PState) (key : ServicePortName)
    (hf : ∀ s a k', k' ≠ key → alookup (f s a).endpointsMap k' = alookup s.endpointsMap k') :
    ∀ (l : List α) (s : PState) (k'), k' ≠ key →
      alookup (l.foldl f s).endpointsMap k' = alookup s.endpointsMap k' := by
  intro l
  induction l with
  | nil => intro s k' _; rfl
  | cons a l ih =>
    intro s k' hk
    simp only [List.foldl_cons]
    exact (ih _ k' hk).trans (hf s a k' hk)

theorem updAddAddrs_callLog (ok : Nat → Bool) (hn : String) (key : ServicePortName)
    (port : EndpointPort) (old : Endpoints) (addrs : List EndpointAddress) (s : PState) :
    (updAddAddrs ok hn key port old addrs s).callLog =
      s.callLog ++ (addrs.map (addCallsAddr old key port)).flatten := by
  refine foldl_callLog_flatten _ _ ?_ addrs s
  intro s' a
  unfold addCallsAddr
  by_cases h1 : a.ip = ""
  · simp [h1]
  · rw [if_neg h1, if_neg h1]
    by_cases h2 : isPortInSubset old.subsets port = true
    · simp [h2]
    · have h2' : isPortInSubset old.subsets port = false := by
        cases hv : isPortInSubset old.subsets port
        · rfl
        · exact absurd hv h2
      rw [h2', if_neg (by simp), if_neg (by simp)]
      exact addEndpoint_callLog ok hn key a port s'

theorem updAddPhase_callLog (ok : Nat → Bool) (hn : String) (old new : Endpoints) (s : PState) :
    (updAddPhase ok hn old new s).callLog = s.callLog ++ addCalls old new := by
  refine foldl_callLog_flatten _ _ ?_ new.subsets s
  intro s1 ss
  refine foldl_callLog_flatten _ _ ?_ ss.ports s1
  intro s2 port
  by_cases hz : port.port = 0
  · simp [hz]
  · rw [if_neg hz, if_neg hz]
    exact updAddAddrs_callLog ok hn
      (getSvcPortName new.name new.ns port.name port.protocol) port old ss.addresses s2

theorem updDelPhase_eq (ok : Nat → Bool) (hn : String) (old new : Endpoints) (s : PState) :
    updDelPhase ok hn old new s = (pairsOf old).foldl (delStep ok hn old new) s := by
  unfold updDelPhase pairsOf
  generalize old.subsets = sss
  induction sss generalizing s with
  | nil => rfl
  | cons ss sss ih =>
    simp only [List.foldl_cons, List.map_cons, List.flatten_cons, List.foldl_append]
    rw [← ih]
    congr 1
    rw [List.foldl_map]
    rfl

theorem delStep_char (ok : Nat → Bool) (hn : String) (old new : Endpoints)
    (M : List (ServicePortName × List EndpointInfo)) (s : PState)
    (sp : EndpointSubset × EndpointPort)
    (hhead : alookup s.endpointsMap (keyOfPair old sp) = alookup M (keyOfPair old sp)) :
    (delStep ok hn old new s sp).callLog = s.callLog ++ gdel old new M sp ∧
    (∀ k', k' ≠ keyOfPair old sp →
      alookup (delStep ok hn old new s sp).endpointsMap k' = alookup s.endpointsMap k') := by
  unfold delStep gdel
  by_cases hz : sp.2.port = 0
  · rw [if_pos hz, if_pos hz]
    exact ⟨by simp, fun _ _ => rfl⟩
  · rw [if_neg hz, if_neg hz, hhead]
    cases hlk : alookup M (keyOfPair old sp) with
    | none =>
      simp only [Option.isSome_none, Bool.false_eq_true, if_false]
      exact ⟨by simp, by simp⟩
    | some eps =>
      simp only [Option.isSome_some, if_true]
      set f : PState → EndpointAddress → PState := fun acc3 addr =>
        if addr.ip = "" then acc3
        else if isPortInSubset new.subsets sp.2 then acc3
        else deleteEndpoint ok hn (keyOfPair old sp) addr sp.2 eps acc3 with hf
      have hfc : ∀ (s' : PState) (a : EndpointAddress),
          (f s' a).callLog = s'.callLog ++ delCallsAddr new (keyOfPair old sp) sp.2 a := by
        intro s' a
        simp only [hf]
        unfold delCallsAddr
        by_cases h1 : a.ip = ""
        · simp [h1]
        · rw [if_neg h1, if_neg h1]
          by_cases h2 : isPortInSubset new.subsets sp.2 = true
          · simp [h2]
          · have h2' : isPortInSubset new.subsets sp.2 = false := by
              cases hv : isPortInSubset new.subsets sp.2
              · rfl
              · exact absurd hv h2
            rw [h2', if_neg (by simp), if_neg (by simp)]
            exact (deleteEndpoint_keeps ok hn (keyOfPair old sp) a sp.2 eps s').2.1
      have hfk : ∀ (s' : PState) (a : EndpointAddress) (k' : ServicePortName),
          k' ≠ keyOfPair old sp →
          alookup (f s' a).endpointsMap k' = alookup s'.endpointsMap k' := by
        intro s' a k' hk
        simp only [hf]
        by_cases h1 : a.ip = ""
        · simp [h1]
        · rw [if_neg h1]
          by_cases h2 : isPortInSubset new.subsets sp.2 = true
          · simp [h2]
          · have h2' : isPortInSubset new.subsets sp.2 = false := by
              cases hv : isPortInSubset new.subsets sp.2
              · rfl
              · exact absurd hv h2
            rw [h2', if_neg (by simp)]
            exact (deleteEndpoint_keeps ok hn (keyOfPair old sp) a sp.2 eps s').2.2 k' hk
      exact ⟨foldl_callLog_flatten f (delCallsAddr new (keyOfPair old sp) sp.2) hfc
          sp.1.addresses s,
        fun k' hk => foldl_otherKeys f (keyOfPair old sp) hfk sp.1.addresses s k' hk⟩

theorem delStep_calls (ok : Nat → Bool) (hn : String) (old new : Endpoints)
    (M : List (ServicePortName × List EndpointInfo)) :
    ∀ (ps : List (EndpointSubset × EndpointPort)) (s : PState),
      (ps.map (keyOfPair old)).Nodup →
      (∀ sp ∈ ps, alookup s.endpointsMap (keyOfPair old sp) =
        alookup M (keyOfPair old sp)) →
      (ps.foldl (delStep ok hn old new) s).callLog =
        s.callLog ++ (ps.map (gdel old new M)).flatten := by
  intro ps
  induction ps with
  | nil => intro s _ _; simp
  | cons sp ps ih =>
    intro s hnd hinv
    simp only [List.foldl_cons, List.map_cons, List.flatten_cons]
    have hndtail : (ps.map (keyOfPair old)).Nodup := by
      simp only [List.map_cons, List.nodup_cons] at hnd
      exact hnd.2
    have hheadnotin : keyOfPair old sp ∉ ps.map (keyOfPair old) := by
      simp only [List.map_cons, List.nodup_cons] at hnd
      exact hnd.1
    obtain ⟨hlog, hkeys⟩ := delStep_char ok hn old new M s sp (hinv sp (List.mem_cons_self _ _))
    rw [ih (delStep ok hn old new s sp) hndtail ?_, hlog, List.append_assoc]
    intro sp' hsp'
    have hkne : keyOfPair old sp' ≠ keyOfPair old sp := by
      intro hcontra
      exact hheadnotin (hcontra ▸ List.mem_map_of_mem (keyOfPair old) hsp')
    rw [hkeys _ hkne]
    exact hinv sp' (List.mem_cons_of_mem _ hsp')

theorem mem_ite_nil_left (c : Prop) [Decidable c] (l : List CallEv) (ev : CallEv) :
    (ev ∈ if c then ([] : List CallEv) else l) ↔ ¬c ∧ ev ∈ l := by
  by_cases h : c <;> simp [h]

theorem mem_ite_nil_right (c : Prop) [Decidable c] (l : List CallEv) (ev : CallEv) :
    (ev ∈ if c then l else ([] : List CallEv)) ↔ c ∧ ev ∈ l := by
  by_cases h : c <;> simp [h]

theorem mem_addCallsAddr (old : Endpoints) (key : ServicePortName) (port : EndpointPort)
    (a : EndpointAddress) (ev : CallEv) :
    ev ∈ addCallsAddr old key port a ↔
      ¬a.ip = "" ∧ isPortInSubset old.subsets port = false ∧
        ev = CallEv.add key a.ip port.port := by
  unfold addCallsAddr
  by_cases h1 : a.ip = ""
  · simp [h1]
  · rw [if_neg h1]
    by_cases h2 : isPortInSubset old.subsets port = true
    · simp [h1, h2]
    · have h2' : isPortInSubset old.subsets port = false := by
        cases hv : isPortInSubset old.subsets port
        · rfl
        · exact absurd hv h2
      simp [h1, h2']

theorem mem_delCallsAddr (new : Endpoints) (key : ServicePortName) (port : EndpointPort)
    (a : EndpointAddress) (ev : CallEv) :
    ev ∈ delCallsAddr new key port a ↔
      ¬a.ip = "" ∧ isPortInSubset new.subsets port = false ∧
        ev = CallEv.del key a.ip port.port := by
  unfold delCallsAddr
  by_cases h1 : a.ip = ""
  · simp [h1]
  · rw [if_neg h1]
    by_cases h2 : isPortInSubset new.subsets port = true
    · simp [h1, h2]
    · have h2' : isPortInSubset new.subsets port = false := by
        cases hv : isPortInSubset new.subsets port
        · rfl
        · exact absurd hv h2
      simp [h1, h2']

theorem mem_addCalls (old new : Endpoints) (k : ServicePortName) (ip : String) (pt : Int) :
    CallEv.add k ip pt ∈ addCalls old new ↔ AddCond old new k ip pt := by
  unfold addCalls AddCond
  simp only [List.mem_flatten, List.mem_map, exists_exists_and_eq_and, mem_ite_nil_left,
    mem_addCallsAddr, CallEv.add.injEq]
  constructor
  · rintro ⟨ss, hss, port, hport, hz, a, ha, hip, hps, hk, hip2, hpt⟩
    exact ⟨ss, hss, port, hport, hz, hps, a, ha, hip, hk, hip2, hpt⟩
  · rintro ⟨ss, hss, port, hport, hz, hps, a, ha, hip, hk, hip2, hpt⟩
    exact ⟨ss, hss, port, hport, hz, a, ha, hip, hps, hk, hip2, hpt⟩

theorem mem_pairsOf (old : Endpoints) (sp : EndpointSubset × EndpointPort) :
    sp ∈ pairsOf old ↔ ∃ ss ∈ old.subsets, ∃ port ∈ ss.ports, sp = (ss, port) := by
  unfold pairsOf
  simp only [List.mem_flatten, List.mem_map, exists_exists_and_eq_and]
  constructor
  · rintro ⟨ss, hss, port, hport, rfl⟩
    exact ⟨ss, hss, port, hport, rfl⟩
  · rintro ⟨ss, hss, port, hport, rfl⟩
    exact ⟨ss, hss, port, hport, rfl⟩

theorem mem_gdel (old new : Endpoints) (M : List (ServicePortName × List EndpointInfo))
    (sp : EndpointSubset × EndpointPort) (ev : CallEv) :
    ev ∈ gdel old new M sp ↔
      ¬sp.2.port = 0 ∧ (alookup M (keyOfPair old sp)).isSome = true ∧
        ∃ a ∈ sp.1.addresses, ¬a.ip = "" ∧ isPortInSubset new.subsets sp.2 = false ∧
          ev = CallEv.del (keyOfPair old sp) a.ip sp.2.port := by
  unfold gdel
  by_cases h1 : sp.2.port = 0
  · simp [h1]
  · rw [if_neg h1]
    by_cases h2 : (alookup M (keyOfPair old sp)).isSome = true
    · rw [if_pos h2]
      simp [h1, h2, List.mem_flatten, List.mem_map, exists_exists_and_eq_and, mem_delCallsAddr,
        and_assoc]
    · rw [if_neg h2]
      simp [h2]

theorem mem_delCalls (old new : Endpoints) (M : List (ServicePortName × List EndpointInfo))
    (k : ServicePortName) (ip : String) (pt : Int) :
    CallEv.del k ip pt ∈ delCalls old new M ↔ DelCond old new M k ip pt := by
  unfold delCalls DelCond
  rw [List.mem_flatten]
  constructor
  · rintro ⟨l, hl, hev⟩
    rw [List.mem_map] at hl
    obtain ⟨sp, hsp, rfl⟩ := hl
    rw [mem_pairsOf] at hsp
    obtain ⟨ss, hss, port, hport, rfl⟩ := hsp
    rw [mem_gdel] at hev
    obtain ⟨hz, hsome, a, ha, hip, hps, hev⟩ := hev
    simp only [CallEv.del.injEq] at hev
    exact ⟨ss, hss, port, hport, hz, hsome, hps, a, ha, hip, hev.1, hev.2.1, hev.2.2⟩
  · rintro ⟨ss, hss, port, hport, hz, hsome, hps, a, ha, hip, hk, hip2, hpt⟩
    refine ⟨gdel old new M (ss, port), ?_, ?_⟩
    · rw [List.mem_map]
      exact ⟨(ss, port), (mem_pairsOf old (ss, port)).mpr ⟨ss, hss, port, hport, rfl⟩, rfl⟩
    · rw [mem_gdel]
      refine ⟨hz, hsome, a, ha, hip, hps, ?_⟩
      subst hk
      subst hip2
      subst hpt
      rfl

/-! ## C2: the diff granularity of UpdateEndpoints -/

/-- C2 (amended): `UpdateEndpoints` diffs at port granularity, not (address,
port) granularity.  Its call log extends by exactly `addCalls` followed by
`delCalls`: `addEndpoint` is called exactly for every valid (address, port)
pair of `new` whose port (name, number, protocol) is absent from `old`'s
subsets, and `deleteEndpoint` exactly for every valid (address, port) pair of
`old` whose port is absent from `new`'s subsets and whose service-port key is
in the endpoints map when the deletion phase starts (each old key appearing in
one subset/port pair). -/
theorem c2_updateEndpoints_calls (ok : Nat → Bool) (hn : String) (old new : Endpoints)
    (s : PState)
    (hguard : ¬(new.ns = "" ∧ new.name = ""))
    (hdiff : ¬old.subsets = new.subsets)
    (hnodup : ((pairsOf old).map (keyOfPair old)).Nodup) :
    (UpdateEndpoints ok hn old new s).callLog =
      s.callLog ++ addCalls old new ++
        delCalls old new (updAddPhase ok hn old new s).endpointsMap ∧
    (∀ k ip pt, CallEv.add k ip pt ∈ addCalls old new ↔ AddCond old new k ip pt) ∧
    (∀ (M : List (ServicePortName × List EndpointInfo)) k ip pt,
      CallEv.del k ip pt ∈ delCalls old new M ↔ DelCond old new M k ip pt) := by
  refine ⟨?_, fun k ip pt => mem_addCalls old new k ip pt,
    fun M k ip pt => mem_delCalls old new M k ip pt⟩
  unfold UpdateEndpoints
  rw [if_neg hguard, if_neg hdiff, updDelPhase_eq,
    delStep_calls ok hn old new (updAddPhase ok hn old new s).endpointsMap (pairsOf old) _
      hnodup (fun _ _ => rfl),
    updAddPhase_callLog]
  rfl

/-- C2 (counterexample): with old = one address 10.244.1.5 on port 8080 and
new = the same subset plus address 10.244.1.6, `addEndpoint` is never called
for the new backend (10.244.1.6, 8080) — because `isPortInSubset` compares
ports only — refuting the claimed (address, port) granularity. -/
theorem c2_counterexample :
    (CallEv.add cKey "10.244.1.6" 8080 ∉
      (UpdateEndpoints allOk "node1" c2Old c2New initState).callLog) ∧
    (∃ ss ∈ c2New.subsets, (∃ a ∈ ss.addresses, a.ip = "10.244.1.6") ∧
      ∃ p ∈ ss.ports, p.port = 8080) ∧
    (∀ ss ∈ c2Old.subsets, ∀ a ∈ ss.addresses, ¬a.ip = "10.244.1.6") := by
  refine ⟨?_, ?_, ?_⟩ <;> decide

theorem c2_updateEndpoints_calls_witness :
    ¬(c2New.ns = "" ∧ c2New.name = "") ∧ ¬c2Old.subsets = c2New.subsets ∧
    ((pairsOf c2Old).map (keyOfPair c2Old)).Nodup ∧
    (UpdateEndpoints allOk "node1" c2Old c2New initState).callLog =
      initState.callLog ++ addCalls c2Old c2New ++
        delCalls c2Old c2New (updAddPhase allOk "node1" c2Old c2New initState).endpointsMap :=
  ⟨by decide, by decide, by decide,
    (c2_updateEndpoints_calls allOk "node1" c2Old c2New initState (by decide) (by decide)
      (by decide)).1⟩

/-- C4 (code bug input): the cache holds version 5 while the watcher delivers
old version 7; the code nevertheless takes the cached copy as authoritative
(the version check is an unimplemented TODO), and it logs the mismatch. -/
theorem c4_stale_cache_preferred :
    authoritativeOld c4State c4Old c4New = (c4Cached, true) ∧ c4Cached ≠ c4Old := by
  constructor
  · decide
  · decide

/-! ## C5 support: association-list membership and no-endpoints set lemmas -/

theorem alookup_mem {α β : Type} [DecidableEq α] :
    ∀ (m : List (α × β)) (k : α) (v : β), alookup m k = some v → (k, v) ∈ m
  | [], _, _, h => Option.noConfusion h
  | (k', v') :: m, k, v, h => by
    by_cases hk : k' = k
    · subst hk
      rw [alookup, if_pos rfl, Option.some.injEq] at h
      subst h
      exact List.mem_cons_self _ _
    · rw [alookup, if_neg hk] at h
      exact List.mem_cons_of_mem _ (alookup_mem m k v h)

theorem mem_aset {α β : Type} [DecidableEq α] :
    ∀ (m : List (α × β)) (k : α) (v : β) (p : α × β), p ∈ aset m k v → p ∈ m ∨ p = (k, v)
  | [], k, v, p, h => by
    rw [aset, List.mem_singleton] at h
    exact Or.inr h
  | (k', v') :: m, k, v, p, h => by
    rw [aset] at h
    by_cases hk : k' = k
    · rw [if_pos hk] at h
      rcases List.mem_cons.1 h with h | h
      · exact Or.inr h
      · exact Or.inl (List.mem_cons_of_mem _ h)
    · rw [if_neg hk] at h
      rcases List.mem_cons.1 h with h | h
      · exact Or.inl (h ▸ List.mem_cons_self _ _)
      · rcases mem_aset m k v p h with h | h
        · exact Or.inl (List.mem_cons_of_mem _ h)
        · exact Or.inr h

theorem mem_aerase {α β : Type} [DecidableEq α] :
    ∀ (m : List (α × β)) (k : α) (p : α × β), p ∈ aerase m k → p ∈ m
  | [], _, _, h => absurd h (List.not_mem_nil _)
  | (k', v') :: m, k, p, h => by
    rw [aerase] at h
    by_cases hk : k' = k
    · rw [if_pos hk] at h
      exact List.mem_cons_of_mem _ (mem_aerase m k p h)
    · rw [if_neg hk] at h
      rcases List.mem_cons.1 h with h | h
      · exact h ▸ List.mem_cons_self _ _
      · exact List.mem_cons_of_mem _ (mem_aerase m k p h)

theorem mem_removeTuple (l : List NoEndTuple) (t x : NoEndTuple) :
    x ∈ removeTuple l t ↔ x ∈ l ∧ ¬x = t := by
  simp [removeTuple]

theorem mem_foldl_removeTuple :
    ∀ (ts l : List NoEndTuple) (x : NoEndTuple), x ∈ ts.foldl removeTuple l → x ∈ l
  | [], _, _, h => h
  | t :: ts, l, x, h => by
    rw [List.foldl_cons] at h
    exact ((mem_removeTuple l t x).1 (mem_foldl_removeTuple ts _ x h)).1

theorem not_mem_foldl_removeTuple :
    ∀ (ts l : List NoEndTuple) (t : NoEndTuple), t ∈ ts → ¬t ∈ ts.foldl removeTuple l
  | [], _, t, ht => absurd ht (List.not_mem_nil t)
  | u :: ts, l, t, ht => by
    rw [List.foldl_cons]
    rcases List.mem_cons.1 ht with rfl | hmem
    · by_cases hts : t ∈ ts
      · exact not_mem_foldl_removeTuple ts (removeTuple l t) t hts
      · intro hc
        exact ((mem_removeTuple l t t).1 (mem_foldl_removeTuple ts _ t hc)).2 rfl
    · exact not_mem_foldl_removeTuple ts (removeTuple l u) t hmem

/-- The invariant only reads the service map, the no-endpoints set and the
slice cache. -/
theorem Inv_of_eq {s s' : PState} (hm : s'.serviceMap = s.serviceMap)
    (hn : s'.noEnd = s.noEnd) (hc : s'.epslCache = s.epslCache) (h : Inv s) : Inv s' := by
  obtain ⟨h1, h2, h3, h4⟩ := h
  refine ⟨fun k i hk => ?_, fun k1 i1 k2 i2 hne hk1 hk2 => ?_,
    fun k i hk hw t htt => ?_, fun p hp => ?_⟩
  · rw [hm] at hk
    exact h1 k i hk
  · rw [hm] at hk1 hk2
    exact h2 k1 i1 k2 i2 hne hk1 hk2
  · rw [hm] at hk
    rw [hn]
    exact h3 k i hk hw t htt
  · rw [hc] at hp
    exact h4 p hp

/-- Erasing a service-map key while only removing no-endpoints tuples
preserves the invariant. -/
theorem Inv_shrink_erase (s s' : PState) (key : ServicePortName)
    (hm : s'.serviceMap = aerase s.serviceMap key)
    (hc : s'.epslCache = s.epslCache)
    (hsub : ∀ x ∈ s'.noEnd, x ∈ s.noEnd)
    (h : Inv s) : Inv s' := by
  obtain ⟨h1, h2, h3, h4⟩ := h
  refine ⟨fun k i hk => ?_, fun k1 i1 k2 i2 hne hk1 hk2 => ?_,
    fun k i hk hw t htt hcon => ?_, fun p hp => ?_⟩
  · rw [hm] at hk
    by_cases hkk : k = key
    · subst hkk
      rw [alookup_aerase_self] at hk
      exact Option.noConfusion hk
    · rw [alookup_aerase_ne _ _ _ (fun hh => hkk hh.symm)] at hk
      exact h1 k i hk
  · rw [hm] at hk1 hk2
    by_cases e1 : k1 = key
    · subst e1
      rw [alookup_aerase_self] at hk1
      exact Option.noConfusion hk1
    · rw [alookup_aerase_ne _ _ _ (fun hh => e1 hh.symm)] at hk1
      by_cases e2 : k2 = key
      · subst e2
        rw [alookup_aerase_self] at hk2
        exact Option.noConfusion hk2
      · rw [alookup_aerase_ne _ _ _ (fun hh => e2 hh.symm)] at hk2
        exact h2 k1 i1 k2 i2 hne hk1 hk2
  · rw [hm] at hk
    by_cases hkk : k = key
    · subst hkk
      rw [alookup_aerase_self] at hk
      exact Option.noConfusion hk
    · rw [alookup_aerase_ne _ _ _ (fun hh => hkk hh.symm)] at hk
      exact h3 k i hk hw t htt (hsub t hcon)
  · rw [hc] at hp
    exact h4 p hp

/-- Rewriting a service-map entry without changing its virtual addresses
preserves the invariant, as long as the new no-endpoints set only gained
tuples of that very entry and the flag is only up when the entry's tuples are
all absent. -/
theorem Inv_writeSvc (s s2 : PState) (key : ServicePortName) (entry e' : SvcInfo)
    (hlk : alookup s.serviceMap key = some entry)
    (hcl : e'.clusterIP = entry.clusterIP)
    (htp : svcNoEndTuples e' Fam.ipv4 = svcNoEndTuples entry Fam.ipv4)
    (hmap : s2.serviceMap = s.serviceMap)
    (hcache : s2.epslCache = s.epslCache)
    (hflag : e'.withEndpoints = true → ∀ t ∈ svcNoEndTuples entry Fam.ipv4, ¬t ∈ s2.noEnd)
    (hne : ∀ x ∈ s2.noEnd, x ∈ s.noEnd ∨ x ∈ svcNoEndTuples entry Fam.ipv4)
    (h : Inv s) : Inv (writeSvc s2 key e') := by
  obtain ⟨h1, h2, h3, h4⟩ := h
  refine ⟨?_, ?_, ?_, ?_⟩
  · intro k i hk
    simp only [writeSvc, hmap] at hk
    by_cases hkk : k = key
    · subst hkk
      rw [alookup_aset_self, Option.some.injEq] at hk
      subst hk
      rw [hcl]
      exact h1 k entry hlk
    · rw [alookup_aset_ne _ _ _ _ (fun hh => hkk hh.symm)] at hk
      exact h1 k i hk
  · intro k1 i1 k2 i2 hne12 hk1 hk2
    simp only [writeSvc, hmap] at hk1 hk2
    by_cases e1 : k1 = key
    · subst e1
      rw [alookup_aset_self, Option.some.injEq] at hk1
      subst hk1
      rw [alookup_aset_ne _ _ _ _ hne12] at hk2
      intro t ht1
      rw [htp] at ht1
      exact h2 k1 entry k2 i2 hne12 hlk hk2 t ht1
    · rw [alookup_aset_ne _ _ _ _ (fun hh => e1 hh.symm)] at hk1
      by_cases e2 : k2 = key
      · subst e2
        rw [alookup_aset_self, Option.some.injEq] at hk2
        subst hk2
        intro t ht1 htc
        rw [htp] at htc
        exact h2 k1 i1 k2 entry hne12 hk1 hlk t ht1 htc
      · rw [alookup_aset_ne _ _ _ _ (fun hh => e2 hh.symm)] at hk2
        exact h2 k1 i1 k2 i2 hne12 hk1 hk2
  · intro k i hk hw t ht
    simp only [writeSvc, hmap] at hk ⊢
    by_cases hkk : k = key
    · subst hkk
      rw [alookup_aset_self, Option.some.injEq] at hk
      subst hk
      rw [htp] at ht
      exact hflag hw t ht
    · rw [alookup_aset_ne _ _ _ _ (fun hh => hkk hh.symm)] at hk
      intro hc
      rcases hne t hc with hin | hin
      · exact h3 k i hk hw t ht hin
      · exact h2 k i key entry hkk hk hlk t ht hin
  · intro p hp
    simp only [writeSvc] at hp
    rw [hcache] at hp
    exact h4 p hp

/-- A fold of invariant-preserving steps preserves the invariant. -/
theorem foldl_pres {α : Type} (P : PState → Prop) (f : PState → α → PState) :
    ∀ (l : List α), (∀ a ∈ l, ∀ st, P st → P (f st a)) → ∀ st, P st → P (l.foldl f st)
  | [], _, _, h => h
  | a :: l, hstep, st, h => by
    rw [List.foldl_cons]
    exact foldl_pres P f l (fun b hb => hstep b (List.mem_cons_of_mem a hb)) (f st a)
      (hstep a (List.mem_cons_self a l) st h)

/-! ## C5 support: the core transitions preserve the invariant (IPv4, allOk) -/

theorem UpdateServiceChain_inv (key : ServicePortName) (s : PState) (h : Inv s) :
    Inv (UpdateServiceChain allOk key Fam.ipv4 s).2 := by
  unfold UpdateServiceChain
  cases hlk : alookup s.serviceMap key with
  | none => exact h
  | some entry =>
    dsimp only
    by_cases hw : entry.withEndpoints = true
    · rw [if_pos hw]
      dsimp only
      split
      · rw [drv_allOk]
        dsimp only
        exact Inv_writeSvc s _ key entry _ hlk rfl rfl rfl rfl
          (fun hw' t ht => h.2.2.1 key entry hlk hw' t ht) (fun x hx => Or.inl hx) h
      · rw [drv_allOk]
        dsimp only
        exact Inv_writeSvc s _ key entry _ hlk rfl rfl rfl rfl
          (fun hw' t ht => h.2.2.1 key entry hlk hw' t ht) (fun x hx => Or.inl hx) h
    · rw [if_neg hw]
      unfold removeFromNoEndpointsList
      rw [removeNoEndTuples_allOk]
      dsimp only
      split
      · rw [drv_allOk]
        dsimp only
        exact Inv_writeSvc s _ key entry _ hlk rfl rfl rfl rfl
          (fun _ t ht => not_mem_foldl_removeTuple _ s.noEnd t ht)
          (fun x hx => Or.inl (mem_foldl_removeTuple _ _ x hx)) h
      · rw [drv_allOk]
        dsimp only
        exact Inv_writeSvc s _ key entry _ hlk rfl rfl rfl rfl
          (fun _ t ht => not_mem_foldl_removeTuple _ s.noEnd t ht)
          (fun x hx => Or.inl (mem_foldl_removeTuple _ _ x hx)) h

theorem deleteEndpointRules_inv (key : ServicePortName) (cn : String) (ids : List Nat)
    (s : PState) (h : Inv s) :
    Inv (deleteEndpointRules allOk key Fam.ipv4 cn ids s).2 := by
  unfold deleteEndpointRules
  obtain ⟨ops, hb, _, _, _⟩ := UpdateServiceChain_allOk key Fam.ipv4 s
  have hIU := UpdateServiceChain_inv key s h
  cases hUc : UpdateServiceChain allOk key Fam.ipv4 s with
  | mk b s1 =>
    rw [hUc] at hb hIU
    dsimp only at hb hIU
    subst hb
    dsimp only
    rw [drv_allOk]
    dsimp only
    rw [drv_allOk]
    dsimp only
    split
    · split
      · exact Inv_of_eq rfl rfl rfl hIU
      · rename_i svc hsv
        dsimp only
        have hfam : getIPFamily svc.clusterIP = Fam.ipv4 := hIU.1 key svc hsv
        rw [hfam]
        unfold addToNoEndpointsList
        rw [addNoEndTuples_allOk]
        dsimp only
        refine Inv_of_eq rfl rfl rfl ?_
        refine Inv_writeSvc s1 _ key svc _ hsv rfl rfl rfl rfl
          (fun hww => Bool.noConfusion hww)
          (fun x hx => (mem_foldl_insertTuple _ _ _).1 hx) hIU
    · exact Inv_of_eq rfl rfl rfl hIU

theorem delLoop_inv (key : ServicePortName) (ep2d : EndpointInfo) (eps : List EndpointInfo) :
    ∀ (rest : List EndpointInfo) (i : Nat) (s : PState), Inv s →
      Inv (delLoop allOk key Fam.ipv4 ep2d eps rest i s)
  | [], _, _, h => h
  | ep :: rest, i, s, h => by
    simp only [delLoop]
    by_cases hm : epEq ep ep2d = true
    · rw [hm]
      simp only [if_true]
      have hD := deleteEndpointRules_inv key ep.chain ep.ruleIDs
        { s with endpointsMap := aset s.endpointsMap key (eps.take i ++ eps.drop (i + 1)) }
        (Inv_of_eq rfl rfl rfl h)
      cases hDc : deleteEndpointRules allOk key Fam.ipv4 ep.chain ep.ruleIDs
          { s with endpointsMap := aset s.endpointsMap key (eps.take i ++ eps.drop (i + 1)) } with
      | mk b s2 =>
        rw [hDc] at hD
        dsimp only at hD
        cases b
        · exact hD
        · exact delLoop_inv key ep2d eps rest (i + 1) s2 hD
    · have hm' : epEq ep ep2d = false := by
        cases hv : epEq ep ep2d
        · rfl
        · exact absurd hv hm
      rw [hm']
      simp only [Bool.false_eq_true, if_false]
      exact delLoop_inv key ep2d eps rest (i + 1) s h

theorem deleteEndpoint_inv (hn : String) (key : ServicePortName) (addr : EndpointAddress)
    (port : EndpointPort) (eps : List EndpointInfo) (s : PState)
    (haddr : isIPv6String addr.ip = false) (h : Inv s) :
    Inv (deleteEndpoint allOk hn key addr port eps s) := by
  unfold deleteEndpoint
  have hfam : getIPFamily addr.ip = Fam.ipv4 := by simp [getIPFamily, haddr]
  rw [hfam]
  exact delLoop_inv key (delTarget hn addr port) eps eps 0 _ (Inv_of_eq rfl rfl rfl h)

theorem addEndpoint_inv (hn : String) (key : ServicePortName) (addr : EndpointAddress)
    (port : EndpointPort) (s : PState) (haddr : isIPv6String addr.ip = false) (h : Inv s) :
    Inv (addEndpoint allOk hn key addr port s).2 := by
  unfold addEndpoint
  have hfam : getIPFamily addr.ip = Fam.ipv4 := by simp [getIPFamily, haddr]
  rw [hfam]
  dsimp only
  rw [drv_allOk]
  dsimp only
  exact UpdateServiceChain_inv key _ (Inv_of_eq rfl rfl rfl h)

/-! ## C5 support: the service handlers preserve the invariant -/

theorem addService_dup (ok : Nat → Bool) (key : ServicePortName) (sp : ServicePort)
    (svc : Service) (s : PState) (h : (alookup s.serviceMap key).isSome = true) :
    addService ok key sp svc s = s := by
  unfold addService
  rw [h]
  exact if_pos rfl

theorem addServiceFin_state (key : ServicePortName) (fam : Fam) (info : SvcInfo) (s : PState) :
    (addServiceFin allOk key fam info s).serviceMap = aset s.serviceMap key info ∧
    (addServiceFin allOk key fam info s).epslCache = s.epslCache ∧
    ∀ x ∈ (addServiceFin allOk key fam info s).noEnd,
      x ∈ s.noEnd ∨ x ∈ svcNoEndTuples info fam := by
  unfold addServiceFin addToNoEndpointsList
  by_cases h : (alookupD s.endpointsMap key []).isEmpty = true
  · rw [if_pos h, addNoEndTuples_allOk]
    dsimp only [writeSvc]
    exact ⟨rfl, rfl, fun x hx => (mem_foldl_insertTuple _ _ _).1 hx⟩
  · rw [if_neg h]
    exact ⟨rfl, rfl, fun x hx => Or.inl hx⟩

theorem addService_inv (key : ServicePortName) (sp : ServicePort) (svc : Service) (s : PState)
    (hip : isIPv6String svc.clusterIP = false)
    (hfresh : (alookup s.serviceMap key).isSome = false)
    (hdisj : ∀ k i, alookup s.serviceMap k = some i →
      ∀ t ∈ svcVirtualTuples svc sp, ¬t ∈ svcNoEndTuples i Fam.ipv4)
    (h : Inv s) :
    Inv (addService allOk key sp svc s) ∧
    (∀ k i, alookup (addService allOk key sp svc s).serviceMap k = some i →
      (¬k = key ∧ alookup s.serviceMap k = some i) ∨
      (k = key ∧ svcNoEndTuples i Fam.ipv4 = svcVirtualTuples svc sp)) := by
  obtain ⟨h1, h2, h3, h4⟩ := h
  have hfam4 : svcFam svc = Fam.ipv4 := by simp [svcFam, hip]
  obtain ⟨info', s', heq, hwe, hcl, htup, hsm, _, hnoe, hca, _⟩ :=
    addService_reduce key sp svc s hfresh
  rw [hfam4] at heq htup
  obtain ⟨f1, f2, f3⟩ := addServiceFin_state key Fam.ipv4 info' s'
  rw [hsm] at f1
  rw [hca] at f2
  have f3' : ∀ x ∈ (addServiceFin allOk key Fam.ipv4 info' s').noEnd,
      x ∈ s.noEnd ∨ x ∈ svcVirtualTuples svc sp := by
    intro x hx
    rcases f3 x hx with hA | hB
    · exact Or.inl (hnoe ▸ hA)
    · exact Or.inr (htup ▸ hB)
  rw [heq]
  constructor
  · refine ⟨?_, ?_, ?_, ?_⟩
    · intro k i hk
      rw [f1] at hk
      by_cases hkk : k = key
      · subst hkk
        rw [alookup_aset_self, Option.some.injEq] at hk
        subst hk
        rw [hcl]
        simp [getIPFamily, hip]
      · rw [alookup_aset_ne _ _ _ _ (fun hh => hkk hh.symm)] at hk
        exact h1 k i hk
    · intro k1 i1 k2 i2 hne12 hk1 hk2
      rw [f1] at hk1 hk2
      by_cases e1 : k1 = key
      · subst e1
        rw [alookup_aset_self, Option.some.injEq] at hk1
        subst hk1
        rw [alookup_aset_ne _ _ _ _ hne12] at hk2
        intro t ht1
        rw [htup] at ht1
        exact hdisj k2 i2 hk2 t ht1
      · rw [alookup_aset_ne _ _ _ _ (fun hh => e1 hh.symm)] at hk1
        by_cases e2 : k2 = key
        · subst e2
          rw [alookup_aset_self, Option.some.injEq] at hk2
          subst hk2
          intro t ht1 htc
          rw [htup] at htc
          exact hdisj k1 i1 hk1 t htc ht1
        · rw [alookup_aset_ne _ _ _ _ (fun hh => e2 hh.symm)] at hk2
          exact h2 k1 i1 k2 i2 hne12 hk1 hk2
    · intro k i hk hw t ht hc
      rw [f1] at hk
      by_cases hkk : k = key
      · subst hkk
        rw [alookup_aset_self, Option.some.injEq] at hk
        subst hk
        rw [hwe] at hw
        exact Bool.noConfusion hw
      · rw [alookup_aset_ne _ _ _ _ (fun hh => hkk hh.symm)] at hk
        rcases f3' t hc with hA | hB
        · exact h3 k i hk hw t ht hA
        · exact hdisj k i hk t hB ht
    · intro p hp
      rw [f2] at hp
      exact h4 p hp
  · intro k i hk
    rw [f1] at hk
    by_cases hkk : k = key
    · subst hkk
      rw [alookup_aset_self, Option.some.injEq] at hk
      subst hk
      exact Or.inr ⟨rfl, htup⟩
    · rw [alookup_aset_ne _ _ _ _ (fun hh => hkk hh.symm)] at hk
      exact Or.inl ⟨hkk, hk⟩

theorem addService_fold_inv (svc : Service) (s0 : PState)
    (hip : isIPv6String svc.clusterIP = false)
    (hd1 : ∀ sp ∈ svc.ports, ∀ k i, alookup s0.serviceMap k = some i →
      ∀ t ∈ svcVirtualTuples svc sp, ¬t ∈ svcNoEndTuples i Fam.ipv4)
    (hd2 : ∀ sp1 ∈ svc.ports, ∀ sp2 ∈ svc.ports,
      ¬getSvcPortName svc.name svc.ns sp1.name sp1.protocol =
        getSvcPortName svc.name svc.ns sp2.name sp2.protocol →
      ∀ t ∈ svcVirtualTuples svc sp1, ¬t ∈ svcVirtualTuples svc sp2) :
    ∀ (ports : List ServicePort), (∀ sp ∈ ports, sp ∈ svc.ports) →
      ∀ a : PState, Inv a →
      (∀ k i, alookup a.serviceMap k = some i →
        alookup s0.serviceMap k = some i ∨
        ∃ sp ∈ svc.ports, k = getSvcPortName svc.name svc.ns sp.name sp.protocol ∧
          svcNoEndTuples i Fam.ipv4 = svcVirtualTuples svc sp) →
      Inv (ports.foldl (fun acc sp =>
        addService allOk (getSvcPortName svc.name svc.ns sp.name sp.protocol) sp svc acc) a)
  | [], _, a, ha, _ => ha
  | sp' :: ports, hsub, a, ha, hq => by
    rw [List.foldl_cons]
    have hsp' : sp' ∈ svc.ports := hsub sp' (List.mem_cons_self _ _)
    by_cases hdup : (alookup a.serviceMap
        (getSvcPortName svc.name svc.ns sp'.name sp'.protocol)).isSome = true
    · rw [addService_dup allOk _ sp' svc a hdup]
      exact addService_fold_inv svc s0 hip hd1 hd2 ports
        (fun x hx => hsub x (List.mem_cons_of_mem _ hx)) a ha hq
    · have hfr : (alookup a.serviceMap
          (getSvcPortName svc.name svc.ns sp'.name sp'.protocol)).isSome = false := by
        cases hv : (alookup a.serviceMap
            (getSvcPortName svc.name svc.ns sp'.name sp'.protocol)).isSome
        · rfl
        · exact absurd hv hdup
      have hdisj : ∀ k i, alookup a.serviceMap k = some i →
          ∀ t ∈ svcVirtualTuples svc sp', ¬t ∈ svcNoEndTuples i Fam.ipv4 := by
        intro k i hk t ht
        rcases hq k i hk with hold | ⟨sp2, hsp2, hkk, htup2⟩
        · exact hd1 sp' hsp' k i hold t ht
        · rw [htup2]
          have hnekk : ¬getSvcPortName svc.name svc.ns sp'.name sp'.protocol =
              getSvcPortName svc.name svc.ns sp2.name sp2.protocol := by
            intro hcontra
            rw [← hkk] at hcontra
            rw [← hcontra] at hk
            rw [hk] at hfr
            exact Bool.noConfusion hfr
          exact hd2 sp' hsp' sp2 hsp2 hnekk t ht
      obtain ⟨hInvA, hQ⟩ := addService_inv _ sp' svc a hip hfr hdisj ha
      refine addService_fold_inv svc s0 hip hd1 hd2 ports
        (fun x hx => hsub x (List.mem_cons_of_mem _ hx)) _ hInvA ?_
      intro k i hk
      rcases hQ k i hk with ⟨_, hold⟩ | ⟨hkeq, htup2⟩
      · exact hq k i hold
      · exact Or.inr ⟨sp', hsp', hkeq, htup2⟩

theorem AddServiceH_inv (svc : Service) (s : PState)
    (hip : isIPv6String svc.clusterIP = false)
    (hd1 : ∀ sp ∈ svc.ports, ∀ p ∈ s.serviceMap,
      ∀ t ∈ svcVirtualTuples svc sp, ¬t ∈ svcNoEndTuples (p.2 : SvcInfo) Fam.ipv4)
    (hd2 : ∀ sp1 ∈ svc.ports, ∀ sp2 ∈ svc.ports,
      ¬getSvcPortName svc.name svc.ns sp1.name sp1.protocol =
        getSvcPortName svc.name svc.ns sp2.name sp2.protocol →
      ∀ t ∈ svcVirtualTuples svc sp1, ¬t ∈ svcVirtualTuples svc sp2)
    (h : Inv s) : Inv (AddServiceH allOk svc s) := by
  unfold AddServiceH
  by_cases hskip : shouldSkipService svc = true
  · rw [if_pos hskip]
    exact h
  · rw [if_neg hskip]
    exact addService_fold_inv svc s hip
      (fun sp hsp k i hk => hd1 sp hsp (k, i) (alookup_mem _ _ _ hk)) hd2
      svc.ports (fun x hx => hx) s h (fun k i hk => Or.inl hk)

theorem delSvcRulesLoop_keeps (fam : Fam) :
    ∀ (l : List (String × List Nat)) (s : PState),
      (l.foldl (fun acc kv =>
          if kv.2.isEmpty then acc
          else (drv allOk acc (Op.delSvcRules fam kv.1 kv.2) 0).2) s).serviceMap
        = s.serviceMap ∧
      (l.foldl (fun acc kv =>
          if kv.2.isEmpty then acc
          else (drv allOk acc (Op.delSvcRules fam kv.1 kv.2) 0).2) s).noEnd = s.noEnd ∧
      (l.foldl (fun acc kv =>
          if kv.2.isEmpty then acc
          else (drv allOk acc (Op.delSvcRules fam kv.1 kv.2) 0).2) s).epslCache = s.epslCache
  | [], _ => ⟨rfl, rfl, rfl⟩
  | kv :: l, s => by
    rw [List.foldl_cons]
    obtain ⟨a, b, c⟩ := delSvcRulesLoop_keeps fam l
      (if kv.2.isEmpty then s else (drv allOk s (Op.delSvcRules fam kv.1 kv.2) 0).2)
    refine ⟨a.trans ?_, b.trans ?_, c.trans ?_⟩ <;>
    · by_cases hkv : kv.2.isEmpty = true
      · rw [if_pos hkv]
      · rw [if_neg hkv]
        simp [drv_allOk]

theorem deleteService_inv (key : ServicePortName) (s : PState) (h : Inv s) :
    Inv (deleteService allOk key s) := by
  unfold deleteService
  cases hlk : alookup s.serviceMap key with
  | none => exact h
  | some info =>
    dsimp only
    have hfam : getIPFamily info.clusterIP = Fam.ipv4 := h.1 key info hlk
    rw [hfam]
    by_cases hw : info.withEndpoints = true
    · rw [if_pos hw]
      obtain ⟨a, b, c⟩ := delSvcRulesLoop_keeps Fam.ipv4 info.chains s
      refine Inv_shrink_erase s _ key ?_ ?_ ?_ h
      · dsimp only
        rw [drv_allOk]
        dsimp only
        rw [a]
      · dsimp only
        rw [drv_allOk]
        dsimp only
        exact c
      · dsimp only
        rw [drv_allOk]
        dsimp only
        intro x hx
        rw [b] at hx
        exact hx
    · rw [if_neg hw]
      unfold removeFromNoEndpointsList
      rw [removeNoEndTuples_allOk]
      dsimp only
      obtain ⟨a, b, c⟩ := delSvcRulesLoop_keeps Fam.ipv4 info.chains
        { s with noEnd := (svcNoEndTuples info Fam.ipv4).foldl removeTuple s.noEnd,
                 trace := s.trace ++ (svcNoEndTuples info Fam.ipv4).map Op.removeNoEnd,
                 calls := s.calls + (svcNoEndTuples info Fam.ipv4).length }
      refine Inv_shrink_erase s _ key ?_ ?_ ?_ h
      · rw [drv_allOk]
        dsimp only
        rw [a]
      · rw [drv_allOk]
        dsimp only
        exact c
      · rw [drv_allOk]
        dsimp only
        intro x hx
        rw [b] at hx
        exact mem_foldl_removeTuple _ _ x hx

theorem DeleteServiceH_inv (svc : Service) (s : PState) (h : Inv s) :
    Inv (DeleteServiceH allOk svc s) := by
  unfold DeleteServiceH
  refine foldl_pres Inv _ svc.ports ?_ s h
  intro sp _ st hst
  exact deleteService_inv _ st hst

/-! ## C5 support: the endpoints handlers preserve the invariant -/

theorem updAddAddrs_inv (hn : String) (key : ServicePortName) (port : EndpointPort)
    (old : Endpoints) (addrs : List EndpointAddress) (s : PState)
    (haddrs : ∀ a ∈ addrs, isIPv6String a.ip = false) (h : Inv s) :
    Inv (updAddAddrs allOk hn key port old addrs s) := by
  unfold updAddAddrs
  refine foldl_pres Inv _ addrs ?_ s h
  intro a ha st hst
  by_cases h1 : a.ip = ""
  · rw [if_pos h1]
    exact hst
  · rw [if_neg h1]
    by_cases h2 : isPortInSubset old.subsets port = true
    · rw [if_pos h2]
      exact hst
    · rw [if_neg h2]
      exact addEndpoint_inv hn key a port st (haddrs a ha) hst

theorem updAddPhase_inv (hn : String) (old new : Endpoints) (s : PState)
    (hip : EpIPv4 new) (h : Inv s) : Inv (updAddPhase allOk hn old new s) := by
  unfold updAddPhase
  refine foldl_pres Inv _ new.subsets ?_ s h
  intro ss hss st hst
  refine foldl_pres Inv _ ss.ports ?_ st hst
  intro port _ st2 hst2
  by_cases h0 : port.port = 0
  · rw [if_pos h0]
    exact hst2
  · rw [if_neg h0]
    exact updAddAddrs_inv hn _ port old ss.addresses st2 (fun a ha => hip ss hss a ha) hst2

theorem updDelPhase_inv (hn : String) (old new : Endpoints) (s : PState)
    (hip : EpIPv4 old) (h : Inv s) : Inv (updDelPhase allOk hn old new s) := by
  unfold updDelPhase
  refine foldl_pres Inv _ old.subsets ?_ s h
  intro ss hss st hst
  refine foldl_pres Inv _ ss.ports ?_ st hst
  intro port _ st2 hst2
  by_cases h0 : port.port = 0
  · rw [if_pos h0]
    exact hst2
  · rw [if_neg h0]
    dsimp only
    cases hlk : alookup st2.endpointsMap
        (getSvcPortName old.name old.ns port.name port.protocol) with
    | none => exact hst2
    | some eps =>
      dsimp only
      refine foldl_pres Inv _ ss.addresses ?_ st2 hst2
      intro a ha st3 hst3
      by_cases h1 : a.ip = ""
      · rw [if_pos h1]
        exact hst3
      · rw [if_neg h1]
        by_cases h2 : isPortInSubset new.subsets port = true
        · rw [if_pos h2]
          exact hst3
        · rw [if_neg h2]
          exact deleteEndpoint_inv hn _ a port eps st3 (hip ss hss a ha) hst3

theorem UpdateEndpoints_inv (hn : String) (epOld epNew : Endpoints) (s : PState)
    (hipO : EpIPv4 epOld) (hipN : EpIPv4 epNew) (h : Inv s) :
    Inv (UpdateEndpoints allOk hn epOld epNew s) := by
  unfold UpdateEndpoints
  by_cases h1 : epNew.ns = "" ∧ epNew.name = ""
  · rw [if_pos h1]
    exact h
  · rw [if_neg h1]
    by_cases h2 : epOld.subsets = epNew.subsets
    · rw [if_pos h2]
      exact h
    · rw [if_neg h2]
      exact updDelPhase_inv hn epOld epNew _ hipO (updAddPhase_inv hn epOld epNew s hipN h)

theorem AddEndpointsH_inv (hn : String) (ep : Endpoints) (s : PState)
    (hip : EpIPv4 ep) (h : Inv s) : Inv (AddEndpointsH allOk hn ep s) := by
  unfold AddEndpointsH
  exact UpdateEndpoints_inv hn _ ep s (fun ss hss => absurd hss (List.not_mem_nil ss)) hip h

theorem DeleteEndpointsH_inv (hn : String) (ep : Endpoints) (s : PState)
    (hip : EpIPv4 ep) (h : Inv s) : Inv (DeleteEndpointsH allOk hn ep s) := by
  unfold DeleteEndpointsH
  exact UpdateEndpoints_inv hn ep _ s hip (fun ss hss => absurd hss (List.not_mem_nil ss)) h

/-! ## C5 support: the endpoint-slice handlers preserve the invariant -/

theorem epSliceRows_addrs (svcName : String) (epsl : EpSlice) (e : SliceEndpoint)
    (p : SlicePort) : ∀ r ∈ epSliceRows svcName epsl e p, r.addr.ip ∈ e.addresses := by
  intro r hr
  unfold epSliceRows at hr
  obtain ⟨a, ha, rfl⟩ := List.mem_map.1 hr
  exact ha

theorem processPorts_addrs (svcName : String) (epsl : EpSlice) (e : SliceEndpoint) :
    ∀ (ps : List SlicePort) (rows : List epInfo),
      processPorts svcName epsl e ps = Except.ok rows →
      ∀ r ∈ rows, r.addr.ip ∈ e.addresses
  | [], rows, h, r, hr => by
    rw [processPorts] at h
    cases h
    exact absurd hr (List.not_mem_nil r)
  | p :: ps, rows, h, r, hr => by
    rw [processPorts] at h
    by_cases hz : p.port = 0
    · rw [if_pos hz] at h
      exact Except.noConfusion h
    · rw [if_neg hz] at h
      cases hrec : processPorts svcName epsl e ps with
      | error m =>
        rw [hrec] at h
        exact Except.noConfusion h
      | ok rest =>
        rw [hrec] at h
        have h' : (Except.ok (epSliceRows svcName epsl e p ++ rest) :
            Except String (List epInfo)) = Except.ok rows := h
        rw [Except.ok.injEq] at h'
        subst h'
        rcases List.mem_append.1 hr with hA | hB
        · exact epSliceRows_addrs svcName epsl e p r hA
        · exact processPorts_addrs svcName epsl e ps rest hrec r hB

theorem processEndpoints_addrs (svcName : String) (epsl : EpSlice) :
    ∀ (es : List SliceEndpoint) (rows : List epInfo),
      processEndpoints svcName epsl es = Except.ok rows →
      ∀ r ∈ rows, ∃ e ∈ es, r.addr.ip ∈ e.addresses
  | [], rows, h, r, hr => by
    rw [processEndpoints] at h
    cases h
    exact absurd hr (List.not_mem_nil r)
  | e :: es, rows, h, r, hr => by
    rw [processEndpoints] at h
    cases hp : processPorts svcName epsl e epsl.ports with
    | error m =>
      rw [hp] at h
      exact Except.noConfusion h
    | ok a =>
      rw [hp] at h
      cases he : processEndpoints svcName epsl es with
      | error m =>
        rw [he] at h
        exact Except.noConfusion h
      | ok b =>
        rw [he] at h
        have h' : (Except.ok (a ++ b) : Except String (List epInfo)) = Except.ok rows := h
        rw [Except.ok.injEq] at h'
        subst h'
        rcases List.mem_append.1 hr with hA | hB
        · exact ⟨e, List.mem_cons_self _ _, processPorts_addrs svcName epsl e epsl.ports a hp r hA⟩
        · obtain ⟨e2, he2, hm2⟩ := processEndpoints_addrs svcName epsl es b he r hB
          exact ⟨e2, List.mem_cons_of_mem _ he2, hm2⟩

theorem processEpSlice_addrs (epsl : EpSlice) (rows : List epInfo)
    (h : processEpSlice epsl = Except.ok rows) (hip : SliceIPv4 epsl) :
    ∀ r ∈ rows, isIPv6String r.addr.ip = false := by
  unfold processEpSlice at h
  cases hlab : getServiceNameFromServiceNameLabel epsl with
  | none =>
    rw [hlab] at h
    cases h
    intro r hr
    exact absurd hr (List.not_mem_nil r)
  | some svcName =>
    rw [hlab] at h
    intro r hr
    obtain ⟨e, he, hm⟩ := processEndpoints_addrs svcName epsl epsl.endpoints rows h r hr
    exact hip e he r.addr.ip hm

theorem storeEpSlInCache_inv (epsl : EpSlice) (s : PState) (hip : SliceIPv4 epsl)
    (h : Inv s) : Inv (storeEpSlInCache epsl s) := by
  obtain ⟨h1, h2, h3, h4⟩ := h
  refine ⟨h1, h2, h3, ?_⟩
  intro p hp
  simp only [storeEpSlInCache] at hp
  rcases mem_aset _ _ _ p hp with hA | hB
  · exact h4 p hA
  · rw [hB]
    exact hip

theorem removeEpSlFromCache_inv (name ns : String) (s : PState) (h : Inv s) :
    Inv (removeEpSlFromCache name ns s) := by
  obtain ⟨h1, h2, h3, h4⟩ := h
  refine ⟨h1, h2, h3, ?_⟩
  intro p hp
  simp only [removeEpSlFromCache] at hp
  exact h4 p (mem_aerase _ _ p hp)

theorem addSliceLoop_inv (hn : String) :
    ∀ (rows : List epInfo) (s : PState), (∀ r ∈ rows, isIPv6String r.addr.ip = false) →
      Inv s → Inv (addSliceLoop allOk hn rows s)
  | [], _, _, h => h
  | e :: rest, s, hr, h => by
    rw [addSliceLoop]
    by_cases hready : (!e.ready) = true
    · rw [if_pos hready]
      exact addSliceLoop_inv hn rest s (fun x hx => hr x (List.mem_cons_of_mem _ hx)) h
    · rw [if_neg hready]
      have hA := addEndpoint_inv hn e.name e.addr e.port s (hr e (List.mem_cons_self _ _)) h
      cases hAc : addEndpoint allOk hn e.name e.addr e.port s with
      | mk b s1 =>
        rw [hAc] at hA
        dsimp only at hA
        cases b
        · exact hA
        · exact addSliceLoop_inv hn rest s1 (fun x hx => hr x (List.mem_cons_of_mem _ hx)) hA

theorem delSliceLoop_inv (hn : String) :
    ∀ (rows : List epInfo) (s : PState), (∀ r ∈ rows, isIPv6String r.addr.ip = false) →
      Inv s → Inv (delSliceLoop allOk hn rows s)
  | [], _, _, h => h
  | e :: rest, s, hr, h => by
    rw [delSliceLoop]
    by_cases hready : (!e.ready) = true
    · rw [if_pos hready]
      exact delSliceLoop_inv hn rest s (fun x hx => hr x (List.mem_cons_of_mem _ hx)) h
    · rw [if_neg hready]
      cases hlk : alookup s.endpointsMap e.name with
      | none => exact delSliceLoop_inv hn rest s (fun x hx => hr x (List.mem_cons_of_mem _ hx)) h
      | some eps =>
        exact delSliceLoop_inv hn rest _ (fun x hx => hr x (List.mem_cons_of_mem _ hx))
          (deleteEndpoint_inv hn e.name e.addr e.port eps s (hr e (List.mem_cons_self _ _)) h)

theorem AddEndpointSlice_inv (hn : String) (epsl : EpSlice) (s : PState)
    (hip : SliceIPv4 epsl) (h : Inv s) : Inv (AddEndpointSlice allOk hn epsl s) := by
  unfold AddEndpointSlice
  cases hp : processEpSlice epsl with
  | error m => exact storeEpSlInCache_inv epsl s hip h
  | ok info =>
    dsimp only
    exact addSliceLoop_inv hn info _ (processEpSlice_addrs epsl info hp hip)
      (storeEpSlInCache_inv epsl s hip h)

theorem DeleteEndpointSlice_inv (hn : String) (epsl : EpSlice) (s : PState)
    (hip : SliceIPv4 epsl) (h : Inv s) : Inv (DeleteEndpointSlice allOk hn epsl s) := by
  unfold DeleteEndpointSlice
  cases hp : processEpSlice epsl with
  | error m => exact h
  | ok info =>
    dsimp only
    exact removeEpSlFromCache_inv epsl.name epsl.ns _
      (delSliceLoop_inv hn info s (processEpSlice_addrs epsl info hp hip) h)

theorem updSliceRow_inv (hn : String) (storedOld : EpSlice) (e : epInfo) (s : PState)
    (haddr : isIPv6String e.addr.ip = false) (h : Inv s) :
    Inv (updSliceRow allOk hn storedOld e s) := by
  unfold updSliceRow
  dsimp only
  split
  · exact addEndpoint_inv hn e.name e.addr e.port s haddr h
  · split
    · exact h
    · split
      · exact h
      · split
        · cases hlk : alookup s.endpointsMap e.name with
          | none => exact h
          | some eps => exact deleteEndpoint_inv hn e.name e.addr e.port eps s haddr h
        · split
          · exact addEndpoint_inv hn e.name e.addr e.port s haddr h
          · exact h

theorem updSliceRemoved_inv (hn : String) (epslNew : EpSlice) (e : epInfo) (s : PState)
    (haddr : isIPv6String e.addr.ip = false) (h : Inv s) :
    Inv (updSliceRemoved allOk hn epslNew e s) := by
  unfold updSliceRemoved
  dsimp only
  split
  · cases hlk : alookup s.endpointsMap e.name with
    | none => exact h
    | some eps => exact deleteEndpoint_inv hn e.name e.addr e.port eps s haddr h
  · exact h

theorem UpdateEndpointSlice_inv (hn : String) (epslOld epslNew : EpSlice) (s : PState)
    (hipO : SliceIPv4 epslOld) (hipN : SliceIPv4 epslNew) (h : Inv s) :
    Inv (UpdateEndpointSlice allOk hn epslOld epslNew s) := by
  unfold UpdateEndpointSlice
  have hstored : SliceIPv4 (authoritativeOld s epslOld epslNew).1 := by
    unfold authoritativeOld
    cases hc : alookup s.epslCache (epslNew.name, epslNew.ns) with
    | none => exact hipO
    | some cached =>
      dsimp only
      intro e he a ha
      exact h.2.2.2 ((epslNew.name, epslNew.ns), cached) (alookup_mem _ _ _ hc) e he a ha
  cases hp : processEpSlice epslNew with
  | error m => exact h
  | ok info =>
    dsimp only
    have h1 : Inv (info.foldl
        (fun acc e => updSliceRow allOk hn (authoritativeOld s epslOld epslNew).1 e acc) s) := by
      refine foldl_pres Inv _ info ?_ s h
      intro e he st hst
      exact updSliceRow_inv hn _ e st (processEpSlice_addrs epslNew info hp hipN e he) hst
    cases hp2 : processEpSlice (authoritativeOld s epslOld epslNew).1 with
    | error m => exact storeEpSlInCache_inv epslNew _ hipN h1
    | ok info2 =>
      dsimp only
      refine storeEpSlInCache_inv epslNew _ hipN ?_
      refine foldl_pres Inv _ info2 ?_ _ h1
      intro e he st hst
      exact updSliceRemoved_inv hn epslNew e st
        (processEpSlice_addrs _ info2 hp2 hstored e he) hst

/-- Every reachable state satisfies the inductive invariant. -/
theorem reach_inv : ∀ {s : PState}, Reach s → Inv s := by
  intro s h
  induction h with
  | init =>
    exact ⟨fun k i hk => Option.noConfusion hk,
      fun k1 i1 k2 i2 _ hk1 => Option.noConfusion hk1,
      fun k i hk => Option.noConfusion hk,
      fun p hp => absurd hp (List.not_mem_nil p)⟩
  | addSvc svc s hr hip hd1 hd2 ih => exact AddServiceH_inv svc s hip hd1 hd2 ih
  | delSvc svc s hr ih => exact DeleteServiceH_inv svc s ih
  | updSvc svcOld svcNew s hr ih => exact ih
  | addEps hn ep s hr hip ih => exact AddEndpointsH_inv hn ep s hip ih
  | delEps hn ep s hr hip ih => exact DeleteEndpointsH_inv hn ep s hip ih
  | updEps hn epOld epNew s hr hipO hipN ih =>
    exact UpdateEndpoints_inv hn epOld epNew s hipO hipN ih
  | addSlice hn epsl s hr hip ih => exact AddEndpointSlice_inv hn epsl s hip ih
  | delSlice hn epsl s hr hip ih => exact DeleteEndpointSlice_inv hn epsl s hip ih
  | updSlice hn epslOld epslNew s hr hipO hipN ih =>
    exact UpdateEndpointSlice_inv hn epslOld epslNew s hipO hipN ih

/-! ## C5: the claimed iff, settled -/

/-- C5 (amended): only one direction of the claimed invariant holds.  In every
reachable state (any sequence of service/endpoints/endpoint-slice handler
calls from the empty state, failure-free driver, IPv4 single-stack,
non-colliding virtual addresses), a service port whose `hasEndpoints`
(`WithEndpoints`) flag is true has none of its virtual-address tuples in the
no-endpoints set.  The converse — flag false implies the tuples are present —
is refuted by `c5_counterexample`. -/
theorem c5_no_endpoints_invariant (s : PState) (h : Reach s) :
    ∀ k i, alookup s.serviceMap k = some i → i.withEndpoints = true →
      ∀ t ∈ svcNoEndTuples i Fam.ipv4, ¬t ∈ s.noEnd :=
  (reach_inv h).2.2.1

/-- C5 (counterexample): the reachable state `c5Bad` (endpoints delivered
before the service is added) has the `cKey` service port registered with
`hasEndpoints = false` while its virtual addresses are NOT in the no-endpoints
set (which is empty), refuting the "if" direction of the claimed iff. -/
theorem c5_counterexample :
    Reach c5Bad ∧
    (alookup c5Bad.serviceMap cKey).map SvcInfo.withEndpoints = some false ∧
    c5Bad.noEnd = [] ∧
    svcVirtualTuples cSvc cSp ≠ [] :=
  ⟨Reach.addSvc cSvc _ (Reach.addEps "node1" c2Old initState Reach.init (by unfold EpIPv4; decide))
      (by decide) (by decide) (by decide),
    by decide, by decide, by decide⟩

theorem c5_no_endpoints_invariant_witness : ¬c5GoodTuple ∈ c5Good.noEnd :=
  c5_no_endpoints_invariant c5Good
    (Reach.addEps "node1" c2Old _
      (Reach.addSvc cSvc initState Reach.init (by decide) (by decide) (by decide))
      (by unfold EpIPv4; decide))
    cKey c5GoodInfo (by decide) (by decide) c5GoodTuple (by decide)

/-! ## C3: the readiness diff of UpdateEndpointSlice, in traversal order -/

/-- C3 (amended): with the delivered old slice authoritative (cache miss), the
state after `UpdateEndpointSlice` is the one reached from the pre-call state
by walking the processed rows of `new` in slice order — `addEndpoint` exactly
for a row that is ready in `new` but not ready (or absent) in `old`,
`deleteEndpoint` exactly for a row present and ready in `old` but not ready in
`new` whose key is in the endpoints map — then walking the processed rows of
`old` in slice order, deleting those that are ready and absent from `new`,
and finally caching `new`.  The order is the fixed traversal order: the
operations do not commute at state level (`c3_counterexample`). -/
theorem c3_updateEndpointSlice (ok : Nat → Bool) (hn : String) (epslOld epslNew : EpSlice)
    (s : PState)
    (hmiss : alookup s.epslCache (epslNew.name, epslNew.ns) = none) :
    (UpdateEndpointSlice ok hn epslOld epslNew s =
      match processEpSlice epslNew with
      | Except.error _ => s
      | Except.ok info =>
        storeEpSlInCache epslNew
          (match processEpSlice epslOld with
           | Except.error _ => info.foldl (fun acc e => updSliceRow ok hn epslOld e acc) s
           | Except.ok info2 =>
             info2.foldl (fun acc e => updSliceRemoved ok hn epslNew e acc)
               (info.foldl (fun acc e => updSliceRow ok hn epslOld e acc) s))) ∧
    (∀ (e : epInfo) (st : PState),
      updSliceRow ok hn epslOld e st =
        if e.ready = true ∧
            ¬((isPortInEndpointSlice epslOld e.port e.addr).2 = true ∧
              (isPortInEndpointSlice epslOld e.port e.addr).1 = true) then
          (addEndpoint ok hn e.name e.addr e.port st).2
        else if (isPortInEndpointSlice epslOld e.port e.addr).2 = true ∧
            (isPortInEndpointSlice epslOld e.port e.addr).1 = true ∧ e.ready = false then
          match alookup st.endpointsMap e.name with
          | none => st
          | some eps => deleteEndpoint ok hn e.name e.addr e.port eps st
        else st) ∧
    (∀ (e : epInfo) (st : PState),
      updSliceRemoved ok hn epslNew e st =
        if e.ready = true ∧ (isPortInEndpointSlice epslNew e.port e.addr).2 = false then
          match alookup st.endpointsMap e.name with
          | none => st
          | some eps => deleteEndpoint ok hn e.name e.addr e.port eps st
        else st) := by
  have hA : authoritativeOld s epslOld epslNew = (epslOld, false) := by
    unfold authoritativeOld
    rw [hmiss]
  refine ⟨?_, ?_, ?_⟩
  · unfold UpdateEndpointSlice
    simp only [hA]
  · intro e st
    unfold updSliceRow
    cases hpr : isPortInEndpointSlice epslOld e.port e.addr with
    | mk oldReady found =>
      cases oldReady <;> cases found <;> cases hre : e.ready <;> simp [hpr, hre]
  · intro e st
    unfold updSliceRemoved
    cases hpr : isPortInEndpointSlice epslNew e.port e.addr with
    | mk oldReady found =>
      cases oldReady <;> cases found <;> cases hre : e.ready <;> simp [hpr, hre]

/-- C3 (counterexample): the two additions prescribed for `c3New` against the
empty-backends slice `c3Old` do not commute: the two application orders give
different proxy states (different endpoint list order, rule handles and
trace), refuting "these additions and deletions commute (any order yields the
same state)". -/
theorem c3_counterexample :
    processEpSlice c3New = Except.ok [c3Row1, c3Row2] ∧
    (∀ r ∈ [c3Row1, c3Row2], r.ready = true ∧
      (isPortInEndpointSlice c3Old r.port r.addr).2 = false) ∧
    updSliceRow allOk "node1" c3Old c3Row2 (updSliceRow allOk "node1" c3Old c3Row1 initState) ≠
      updSliceRow allOk "node1" c3Old c3Row1 (updSliceRow allOk "node1" c3Old c3Row2 initState) :=
  ⟨rfl, by decide, by decide⟩

theorem c3_updateEndpointSlice_witness :
    alookup initState.epslCache (c3New.name, c3New.ns) = none ∧
    (UpdateEndpointSlice allOk "node1" c3Old c3New initState =
      match processEpSlice c3New with
      | Except.error _ => initState
      | Except.ok info =>
        storeEpSlInCache c3New
          (match processEpSlice c3Old with
           | Except.error _ =>
             info.foldl (fun acc e => updSliceRow allOk "node1" c3Old e acc) initState
           | Except.ok info2 =>
             info2.foldl (fun acc e => updSliceRemoved allOk "node1" c3New e acc)
               (info.foldl (fun acc e => updSliceRow allOk "node1" c3Old e acc) initState))) :=
  ⟨rfl, (c3_updateEndpointSlice allOk "node1" c3Old c3New initState rfl).1⟩

end NFP
